import Mathlib

/-!
Verification of the optimistic-weather forecast core (`src/services/openWeather.ts`
and its mobile variant `mobile/src/services/openWeather.ts`).

Shallow-embedding conventions, used uniformly below:

* A JavaScript `number` is modelled as an exact rational (`ℚ`).  Fields whose
  NaN-handling the source code inspects explicitly (`pop`, rain/snow volumes,
  daily `temp.day`/`temp.max`/`temp.min`, hourly `temp`/`feels_like`,
  `sunrise`/`sunset`) are modelled with `JsNum` (`nan` or a rational), and
  optional fields with `Option`.  Other numeric fields are plain rationals, per
  their TypeScript types.
* A JavaScript `Date` produced from `(seconds) * 1000` is modelled by the
  rational number of epoch seconds it represents.
* Network calls are factored out: each `fetch`-shaped dependency becomes a
  function or `Except`/`Option` argument of the pure model, so the data flow of
  the source is kept while the transport is a parameter.
* `Map`/`Set` objects used only for membership/first-wins keying are modelled
  with lists and decidable membership.
-/

namespace OptimisticWeather

/-- A JavaScript number: either `NaN` or an (exactly modelled) rational. -/
inductive JsNum where
  | nan : JsNum
  | num : ℚ → JsNum
deriving DecidableEq

/-- `typeof v === 'number' && !Number.isNaN(v)` for an optional number field. -/
def isRealNum : Option JsNum → Bool
  | some (JsNum.num _) => true
  | _ => false

/-- The rational value of an optional number field, with a default used only on
paths the source guards by `isRealNum`-style checks (or by `?? d`). -/
def numValD (v : Option JsNum) (d : ℚ) : ℚ :=
  match v with
  | some (JsNum.num q) => q
  | _ => d

/-- JavaScript addition on possibly-NaN numbers: NaN propagates. -/
def jsAdd : JsNum → JsNum → JsNum
  | JsNum.num a, JsNum.num b => JsNum.num (a + b)
  | _, _ => JsNum.nan

/-- JavaScript `x > c` on a possibly-NaN left operand: false on NaN. -/
def jsGt (v : JsNum) (c : ℚ) : Bool :=
  match v with
  | JsNum.num q => decide (c < q)
  | JsNum.nan => false

/-- JavaScript `x >= c` on a possibly-NaN left operand: false on NaN. -/
def jsGe (v : JsNum) (c : ℚ) : Bool :=
  match v with
  | JsNum.num q => decide (c ≤ q)
  | JsNum.nan => false

/-- `Math.round`: round half up, `Math.round(x) = ⌊x + 1/2⌋`. -/
def jsRound (q : ℚ) : ℤ := ⌊q + 1/2⌋

/-- `Math.min(Math.max(value, 0), 1)`. -/
def clampUnit (q : ℚ) : ℚ := min (max q 0) 1

/-- `clampPopPercent` (src/services/openWeather.ts:426-432): `null` for a
missing or NaN probability, otherwise the raw value clamped to `[0,1]`, scaled
by 100 and rounded. -/
def clampPopPercent (value : Option JsNum) : Option ℤ :=
  match value with
  | some (JsNum.num q) => some (jsRound (clampUnit q * 100))
  | _ => none

/-- `toDateWithOffset` (src/services/openWeather.ts:434-439): `undefined` for a
missing or NaN timestamp, otherwise the epoch seconds shifted by the offset
(the produced `Date` is modelled by its epoch-seconds value). -/
def toDateWithOffset (timestamp : Option JsNum) (offsetSeconds : ℤ) : Option ℚ :=
  match timestamp with
  | some (JsNum.num t) => some (t + (offsetSeconds : ℚ))
  | _ => none

/-- One `weather` array element (`{ main, description, icon }`; the numeric
`id` is never read by the verified code paths). -/
structure WeatherCond where
  main : String
  description : String
  icon : Option String
deriving DecidableEq

/-- The `temp` block of a daily entry.  All three fields are modelled as
optional possibly-NaN numbers because `buildExtendedOutlook` guards each with
`typeof … === 'number' && !Number.isNaN(…)` checks. -/
structure DailyTemp where
  day : Option JsNum
  max : Option JsNum
  min : Option JsNum
deriving DecidableEq

/-- `DailyForecastEntry`, restricted to the fields the verified functions read
(`dt`, `sunrise`, `sunset`, `temp`, `weather`, `pop`; pass-through payload
fields such as pressure/humidity/wind are never consumed downstream). -/
structure DailyForecastEntry where
  dt : ℤ
  sunrise : Option JsNum
  sunset : Option JsNum
  temp : DailyTemp
  weather : List WeatherCond
  pop : Option JsNum
deriving DecidableEq

/-- The merge key of `mergeDailyEntries`:
`new Date(entry.dt * 1000).toISOString().slice(0, 10)` is the UTC calendar
date, which (for timestamps in the range `Date` accepts) is determined by and
determines `⌊dt / 86400⌋`, so the string key is modelled by that integer. -/
def mergeDayKey (dt : ℤ) : ℤ := Int.fdiv dt 86400

/-- First-wins keyed insertion (`if (!keyed.has(key)) keyed.set(key, entry)`),
iterating in input order with the set of already-seen keys accumulated. -/
def applyKeyed (seen : List ℤ) : List DailyForecastEntry → List DailyForecastEntry
  | [] => []
  | e :: rest =>
    if mergeDayKey e.dt ∈ seen then applyKeyed seen rest
    else e :: applyKeyed (mergeDayKey e.dt :: seen) rest

/-- Comparison used by `sort((a, b) => a.dt - b.dt)`. -/
def dtLe (a b : DailyForecastEntry) : Prop := a.dt ≤ b.dt

instance : DecidableRel dtLe := fun a b => inferInstanceAs (Decidable (a.dt ≤ b.dt))

instance : IsTotal DailyForecastEntry dtLe := ⟨fun a b => Int.le_total a.dt b.dt⟩

instance : IsTrans DailyForecastEntry dtLe := ⟨fun _ _ _ h1 h2 => le_trans h1 h2⟩

/-- `EXTENDED_OUTLOOK_REQUIRED_DAYS`. -/
def EXTENDED_OUTLOOK_REQUIRED_DAYS : Nat := 10

/-- `mergeDailyEntries` (src/services/openWeather.ts:510-531): key the
concatenation of primary then fallback entries by UTC day with first-wins,
sort ascending by `dt` (the JS stable sort; all surviving `dt`s are distinct,
see `mergeDailyEntries_spec`), and cap at 10. -/
def mergeDailyEntries (primary fallback : List DailyForecastEntry) : List DailyForecastEntry :=
  ((applyKeyed [] (primary ++ fallback)).insertionSort dtLe).take EXTENDED_OUTLOOK_REQUIRED_DAYS

/-- The temperature-validity filter of `buildExtendedOutlook`
(src/services/openWeather.ts:542-548). -/
def tempValid (entry : DailyForecastEntry) : Bool :=
  isRealNum entry.temp.max && isRealNum entry.temp.min

/-- One produced outlook day (`OptimisticDailyOutlook`); `date`, `sunrise` and
`sunset` are `Date`s modelled by epoch seconds. -/
structure OptimisticDailyOutlook where
  date : ℚ
  high : ℚ
  low : ℚ
  dayAverage : JsNum
  precipitationChancePercent : Option ℤ
  condition : String
  description : String
  sunrise : Option ℚ
  sunset : Option ℚ
  source : String
deriving DecidableEq

/-- The `.map` body of `buildExtendedOutlook` (src/services/openWeather.ts:550-567). -/
def buildOutlookDay (timezoneOffsetSeconds : ℤ) (entry : DailyForecastEntry) :
    OptimisticDailyOutlook :=
  let primary := entry.weather.head?
  let dayAverage :=
    match entry.temp.day with
    | some v => v
    | none =>
      JsNum.num ((numValD entry.temp.max 0 + numValD entry.temp.min 0) / 2)
  { date := ((entry.dt + timezoneOffsetSeconds : ℤ) : ℚ)
    high := numValD entry.temp.max 0
    low := numValD entry.temp.min 0
    dayAverage := dayAverage
    precipitationChancePercent := clampPopPercent entry.pop
    condition := (primary.map (·.main)).getD "Clear"
    description := (primary.map (·.description)).getD "Clear skies"
    sunrise := toDateWithOffset entry.sunrise timezoneOffsetSeconds
    sunset := toDateWithOffset entry.sunset timezoneOffsetSeconds
    source := "onecall" }

/-- `buildExtendedOutlook` (src/services/openWeather.ts:533-569).  The
`!dailyEntries?.length` early return is subsumed by the `none` case plus the
fact that filtering/slicing/mapping an empty list yields `[]`. -/
def buildExtendedOutlook (dailyEntries : Option (List DailyForecastEntry))
    (timezoneOffsetSeconds : ℤ) : List OptimisticDailyOutlook :=
  match dailyEntries with
  | none => []
  | some entries =>
    (((entries.filter tempValid).take 10).map (buildOutlookDay timezoneOffsetSeconds))

/-- `HourlyForecastEntry`, restricted to the fields `buildHourlyOutlook`
reads. -/
structure HourlyForecastEntry where
  dt : ℤ
  temp : Option JsNum
  feels_like : Option JsNum
  pop : Option JsNum
  weather : List WeatherCond
deriving DecidableEq

/-- `HOURLY_OUTLOOK_LIMIT`. -/
def HOURLY_OUTLOOK_LIMIT : Nat := 12

/-- `OptimisticHourlyOutlook`; `time` is a `Date` modelled by epoch seconds. -/
structure OptimisticHourlyOutlook where
  id : String
  time : ℚ
  temperature : ℚ
  feelsLike : ℚ
  precipitationChancePercent : Option ℤ
  condition : String
  description : String
  icon : Option String
deriving DecidableEq

/-- `buildHourlyOutlook` (src/services/openWeather.ts:571-596). -/
def buildHourlyOutlook (hourlyEntries : Option (List HourlyForecastEntry))
    (timezoneOffsetSeconds : ℤ) : List OptimisticHourlyOutlook :=
  match hourlyEntries with
  | none => []
  | some entries =>
    (((entries.filter (fun e => isRealNum e.temp)).take HOURLY_OUTLOOK_LIMIT).map
      (fun entry =>
        let primary := entry.weather.head?
        { id := "hour-" ++ toString entry.dt
          time := ((entry.dt + timezoneOffsetSeconds : ℤ) : ℚ)
          temperature := numValD entry.temp 0
          feelsLike :=
            match entry.feels_like with
            | some (JsNum.num q) => q
            | _ => numValD entry.temp 0
          precipitationChancePercent := clampPopPercent entry.pop
          condition := (primary.map (·.main)).getD "Clear"
          description := (primary.map (·.description)).getD "Clear skies"
          icon := primary.bind (·.icon) }))

/-- `ExtendedForecastResponse` (One Call 3.0), restricted to the consumed
fields. -/
structure ExtendedForecastResponse where
  lat : ℚ
  lon : ℚ
  timezone : String
  timezone_offset : Option ℤ
  daily : Option (List DailyForecastEntry)
  hourly : Option (List HourlyForecastEntry)
deriving DecidableEq

/-- `LegacyDailyForecastEntry` (data/2.5 daily), restricted to the fields
`normalizeLegacyDailyEntry` copies and downstream code consumes.  The
renamed-only wind fields (`speed`/`gust`/`deg` → `wind_speed`/…) carry no
verified behaviour and are omitted together with their targets. -/
structure LegacyDailyForecastEntry where
  dt : ℤ
  sunrise : Option JsNum
  sunset : Option JsNum
  temp : DailyTemp
  weather : List WeatherCond
  pop : Option JsNum
deriving DecidableEq

/-- `LegacyDailyForecastResponse`, restricted to the consumed fields. -/
structure LegacyDailyForecastResponse where
  city_timezone : Option ℤ
  list : List LegacyDailyForecastEntry
deriving DecidableEq

/-- `normalizeLegacyDailyEntry` (src/services/openWeather.ts:492-508): pure
field-for-field copy into the shared daily shape. -/
def normalizeLegacyDailyEntry (entry : LegacyDailyForecastEntry) : DailyForecastEntry :=
  { dt := entry.dt
    sunrise := entry.sunrise
    sunset := entry.sunset
    temp := entry.temp
    weather := entry.weather
    pop := entry.pop }

/-- The `try`/`catch` of `fetchPrimaryDailyForecast`
(src/services/openWeather.ts:441-465): any provider failure becomes `null`. -/
def fetchPrimaryDailyForecast (outcome : Except String ExtendedForecastResponse) :
    Option ExtendedForecastResponse :=
  match outcome with
  | Except.ok r => some r
  | Except.error _ => none

/-- The `try`/`catch` of `fetchLegacyDailyForecast`
(src/services/openWeather.ts:467-490): any provider failure becomes `null`. -/
def fetchLegacyDailyForecast (outcome : Except String LegacyDailyForecastResponse) :
    Option LegacyDailyForecastResponse :=
  match outcome with
  | Except.ok r => some r
  | Except.error _ => none

/-- `primary?.daily?.length && primary.daily.length >= 10`: truthy exactly when
a daily list is present with at least 10 entries. -/
def primaryHasFullDaily (primary : Option ExtendedForecastResponse) : Bool :=
  match primary with
  | some p =>
    match p.daily with
    | some d => decide (EXTENDED_OUTLOOK_REQUIRED_DAYS ≤ d.length)
    | none => false
  | none => false

/-- `fetchDailyForecast` (src/services/openWeather.ts:618-652), with the two
network outcomes passed in.  Both sources' failures are already converted to
`none` by the catch wrappers, so the composition is total. -/
def fetchDailyForecast (primaryOutcome : Except String ExtendedForecastResponse)
    (legacyOutcome : Except String LegacyDailyForecastResponse)
    (lat lon : ℚ) : Option ExtendedForecastResponse :=
  let primary := fetchPrimaryDailyForecast primaryOutcome
  if primaryHasFullDaily primary then primary
  else
    match fetchLegacyDailyForecast legacyOutcome with
    | none => primary
    | some fallback =>
      if fallback.list.isEmpty then primary
      else
        let fallbackAsDaily := fallback.list.map normalizeLegacyDailyEntry
        let timezoneOffset := fallback.city_timezone.getD 0
        match primary with
        | none =>
          some { lat := lat, lon := lon, timezone := "legacy"
                 timezone_offset := some timezoneOffset
                 daily := some fallbackAsDaily, hourly := none }
        | some p =>
          some { p with
                 daily := some (mergeDailyEntries (p.daily.getD []) fallbackAsDaily)
                 timezone_offset := some (p.timezone_offset.getD timezoneOffset) }

/-- `EXTENDED_OUTLOOK_LIMITED_MESSAGE`. -/
def EXTENDED_OUTLOOK_LIMITED_MESSAGE : String :=
  "Extended outlook limited by available data."

/-- `EXTENDED_OUTLOOK_UNAVAILABLE_MESSAGE`. -/
def EXTENDED_OUTLOOK_UNAVAILABLE_MESSAGE : String :=
  "Extended outlook unavailable for this location right now."

/-- `OptimisticExtendedOutlook`. -/
structure OptimisticExtendedOutlook where
  days : List OptimisticDailyOutlook
  isComplete : Bool
  message : Option String
deriving DecidableEq

/-- The extended-outlook assembly block of `fetchOptimisticForecast`
(src/services/openWeather.ts:933-962). -/
def extendedOutlookOf (extendedResponse : Option ExtendedForecastResponse) :
    OptimisticExtendedOutlook :=
  match extendedResponse with
  | some r =>
    let days := buildExtendedOutlook r.daily (r.timezone_offset.getD 0)
    if days.isEmpty then
      { days := [], isComplete := false
        message := some EXTENDED_OUTLOOK_UNAVAILABLE_MESSAGE }
    else
      let isComplete := decide (EXTENDED_OUTLOOK_REQUIRED_DAYS ≤ days.length)
      { days := days, isComplete := isComplete
        message := if isComplete then none else some EXTENDED_OUTLOOK_LIMITED_MESSAGE }
  | none =>
    { days := [], isComplete := false
      message := some EXTENDED_OUTLOOK_UNAVAILABLE_MESSAGE }

/-- JavaScript `toLowerCase()`, as a character map (ASCII case mapping). -/
def strLower (s : String) : String := String.mk (s.data.map Char.toLower)

/-- JavaScript `toUpperCase()`, as a character map (ASCII case mapping). -/
def strUpper (s : String) : String := String.mk (s.data.map Char.toUpper)

/-- JavaScript `trim()`: strip leading and trailing whitespace. -/
def strTrim (s : String) : String :=
  String.mk (((s.data.dropWhile Char.isWhitespace).reverse.dropWhile Char.isWhitespace).reverse)

/-- `query.split(',')[0]`: the characters before the first comma (the whole
string when no comma occurs). -/
def beforeFirstComma (s : String) : String :=
  String.mk (s.data.takeWhile (fun c => c ≠ ','))

/-- `GeoLocation`. -/
structure GeoLocation where
  name : String
  lat : ℚ
  lon : ℚ
  state : Option String
  country : String
deriving DecidableEq

/-- `US_STATE_CODE_TO_NAME` as an ordered association list. -/
def usStatePairs : List (String × String) :=
  [("AL", "Alabama"), ("AK", "Alaska"), ("AZ", "Arizona"), ("AR", "Arkansas"),
   ("CA", "California"), ("CO", "Colorado"), ("CT", "Connecticut"), ("DE", "Delaware"),
   ("FL", "Florida"), ("GA", "Georgia"), ("HI", "Hawaii"), ("ID", "Idaho"),
   ("IL", "Illinois"), ("IN", "Indiana"), ("IA", "Iowa"), ("KS", "Kansas"),
   ("KY", "Kentucky"), ("LA", "Louisiana"), ("ME", "Maine"), ("MD", "Maryland"),
   ("MA", "Massachusetts"), ("MI", "Michigan"), ("MN", "Minnesota"), ("MS", "Mississippi"),
   ("MO", "Missouri"), ("MT", "Montana"), ("NE", "Nebraska"), ("NV", "Nevada"),
   ("NH", "New Hampshire"), ("NJ", "New Jersey"), ("NM", "New Mexico"), ("NY", "New York"),
   ("NC", "North Carolina"), ("ND", "North Dakota"), ("OH", "Ohio"), ("OK", "Oklahoma"),
   ("OR", "Oregon"), ("PA", "Pennsylvania"), ("RI", "Rhode Island"), ("SC", "South Carolina"),
   ("SD", "South Dakota"), ("TN", "Tennessee"), ("TX", "Texas"), ("UT", "Utah"),
   ("VT", "Vermont"), ("VA", "Virginia"), ("WA", "Washington"), ("WV", "West Virginia"),
   ("WI", "Wisconsin"), ("WY", "Wyoming"), ("DC", "District of Columbia")]

/-- `US_STATE_CODE_TO_NAME.get(code)`. -/
def usStateCodeToName (code : String) : Option String :=
  (usStatePairs.find? (fun p => p.1 = code)).map Prod.snd

/-- `US_STATE_NAME_TO_CODE.get(lowerName)` (keys are the lower-cased state
names). -/
def usStateNameToCode (lowerName : String) : Option String :=
  (usStatePairs.find? (fun p => strLower p.2 = lowerName)).map Prod.fst

/-- `formatUsLocationLabel` (src/services/openWeather.ts:270-282). -/
def formatUsLocationLabel (location : GeoLocation) : String :=
  match location.state with
  | none => location.name
  | some st =>
    let stateCode :=
      match usStateNameToCode (strLower st) with
      | some code => strUpper code
      | none => if st.length = 2 then strUpper st else st
    location.name ++ ", " ++ stateCode

/-- `filterUsLocations` (src/services/openWeather.ts:284-285). -/
def filterUsLocations (locations : List GeoLocation) : List GeoLocation :=
  locations.filter (fun location => strUpper location.country = "US")

/-- A character accepted by the token splitter `/[^A-Za-z0-9]+/`
(ASCII letters and digits; `Char.isAlphanum` is exactly that set). -/
def isQueryTokenChar (c : Char) : Bool := c.isAlphanum

/-- `query.split(/[^A-Za-z0-9]+/).map(trim).filter(Boolean)`: maximal runs of
alphanumeric characters (the produced tokens contain no whitespace, so the
`trim`/`filter(Boolean)` steps only discard the empty fragments that this
formulation never emits). -/
def tokenizeQuery (s : String) : List String :=
  go s.data []
where
  go : List Char → List Char → List String
  | [], acc => if acc.isEmpty then [] else [String.mk acc.reverse]
  | c :: cs, acc =>
    if isQueryTokenChar c then go cs (c :: acc)
    else if acc.isEmpty then go cs [] else String.mk acc.reverse :: go cs []

/-- `needle` is a prefix of `hay` (character lists). -/
def charsHasPfx : List Char → List Char → Bool
  | [], _ => true
  | _ :: _, [] => false
  | n :: ns, h :: hs => n = h && charsHasPfx ns hs

/-- JavaScript `hay.includes(needle)`: some suffix of `hay` starts with
`needle`. -/
def charsHasSub (needle : List Char) : List Char → Bool
  | [] => needle.isEmpty
  | h :: t => charsHasPfx needle (h :: t) || charsHasSub needle t

/-- JavaScript `hay.includes(needle)` on strings. -/
def strIncludes (hay needle : String) : Bool := charsHasSub needle.data hay.data

/-- Inner loop of the `levenshteinDistance` row update
(src/services/openWeather.ts:122-131): arguments are `dp[i-1][j-1]` (diag),
`dp[i][j-1]` (left), the remaining characters of `b`, and the remaining
entries `dp[i-1][j], dp[i-1][j+1], …` of the previous row. -/
def levNextRowAux (x : Char) : Nat → Nat → List Char → List Nat → List Nat
  | _, _, [], _ => []
  | _, _, _ :: _, [] => []
  | diag, left, y :: ys, pj :: prest =>
    let cost := if x = y then 0 else 1
    let v := min (min (pj + 1) (left + 1)) (diag + cost)
    v :: levNextRowAux x pj v ys prest

/-- One row update of the DP: `dp[i][0] = i` is the previous row's first cell
plus one. -/
def levNextRow (x : Char) (bs : List Char) (prev : List Nat) : List Nat :=
  match prev with
  | [] => []
  | p0 :: rest => (p0 + 1) :: levNextRowAux x p0 (p0 + 1) bs rest

/-- `levenshteinDistance` (src/services/openWeather.ts:103-134): the classic
dynamic program with base row `dp[0][j] = j`, folding one row per character of
`a` and reading `dp[lenA][lenB]`. -/
def levenshteinDistance (a b : String) : Nat :=
  let bs := b.data
  let finalRow := a.data.foldl (fun row x => levNextRow x bs row) (List.range (bs.length + 1))
  finalRow.getLastD 0

/-- The country-hint test of `pickBestMatch`
(src/services/openWeather.ts:150-157), with the `Intl.DisplayNames` region
table passed in as `regionNames`.  The token `Set` is modelled by membership
in the lower-cased token list. -/
def matchesCountryFromOption (regionNames : String → Option String)
    (normalizedQuery : String) (normalizedTokens : List String)
    (countryCode : String) : Bool :=
  normalizedTokens.contains (strLower countryCode) ||
    (match regionNames countryCode with
     | some countryName => strIncludes normalizedQuery (strLower countryName)
     | none => false)

/-- The query's state-hint set (src/services/openWeather.ts:161-179), as a
list (only membership is consumed). -/
def queryStateHints (normalizedTokens uppercaseTokens : List String) : List String :=
  let fromNames := normalizedTokens.foldl (fun acc token =>
    match usStateNameToCode token with
    | some code => acc ++ [token, strLower code]
    | none => acc) []
  uppercaseTokens.foldl (fun acc token =>
    match usStateCodeToName token with
    | some name => acc ++ [strLower token, strLower name]
    | none => acc) fromNames

/-- The state-hint test of `pickBestMatch` (src/services/openWeather.ts:182-200). -/
def matchesStateFromOption (hints uppercaseTokens : List String)
    (option : GeoLocation) : Bool :=
  match option.state with
  | none => false
  | some st =>
    let normalizedState := strLower st
    if hints.contains normalizedState then true
    else if uppercaseTokens.contains (strUpper st) then true
    else if strUpper option.country = "US" then
      match usStateNameToCode normalizedState with
      | some stateCode => hints.contains (strLower stateCode)
      | none => false
    else false

/-- The candidate label `"name, state, country"` (src/services/openWeather.ts:203-208). -/
def optionLabel (option : GeoLocation) : String :=
  let labelParts :=
    [option.name] ++ (match option.state with | some st => [st] | none => []) ++ [option.country]
  strLower (String.intercalate ", " labelParts)

/-- The composite score of one candidate (src/services/openWeather.ts:202-233):
edit distance with the country/state adjustments from the source. -/
def scoreFor (regionNames : String → Option String) (query : String)
    (options : List GeoLocation) (option : GeoLocation) : ℤ :=
  let normalizedQuery := strLower (strTrim query)
  let rawTokens := tokenizeQuery query
  let normalizedTokens := rawTokens.map strLower
  let uppercaseTokens := rawTokens.map strUpper
  let hasCountryHints := options.any (fun o =>
    matchesCountryFromOption regionNames normalizedQuery normalizedTokens o.country)
  let hints := queryStateHints normalizedTokens uppercaseTokens
  let hasStateHints := !hints.isEmpty
  let distance : ℤ := (levenshteinDistance normalizedQuery (optionLabel option) : ℕ)
  let matchesCountryHint :=
    matchesCountryFromOption regionNames normalizedQuery normalizedTokens option.country
  let matchesStateHint := matchesStateFromOption hints uppercaseTokens option
  let isUsOption := strUpper option.country = "US"
  let score1 :=
    if matchesCountryHint then distance - 40
    else if hasCountryHints then distance + 20
    else distance
  if matchesStateHint then score1 - 25
  else if hasStateHints then
    (if isUsOption then score1 + 15 - 10 else score1 + 15 + 10)
  else score1

/-- Comparison used by the stable score sort `sort((a, b) => a.score - b.score)`. -/
def scoreLe (a b : GeoLocation × ℤ) : Prop := a.2 ≤ b.2

instance : DecidableRel scoreLe := fun a b => inferInstanceAs (Decidable (a.2 ≤ b.2))

instance : IsTotal (GeoLocation × ℤ) scoreLe := ⟨fun a b => Int.le_total a.2 b.2⟩

instance : IsTrans (GeoLocation × ℤ) scoreLe := ⟨fun _ _ _ h1 h2 => le_trans h1 h2⟩

/-- `pickBestMatch` (src/services/openWeather.ts:136-237): score every
candidate, stable-sort ascending by score, return the first (or `null` for an
empty candidate list). -/
def pickBestMatch (regionNames : String → Option String) (query : String)
    (options : List GeoLocation) : Option GeoLocation :=
  match options with
  | [] => none
  | _ :: _ =>
    let scored := options.map (fun option => (option, scoreFor regionNames query options option))
    ((scored.insertionSort scoreLe).head?).map Prod.fst

/-- A character of the postal-code body `[A-Za-z0-9-]`. -/
def isZipChar (c : Char) : Bool := c.isAlphanum || c = '-'

/-- A whitespace character for the regex class `\s` (modelled as the ASCII
whitespace set). -/
def isJsSpace (c : Char) : Bool :=
  c = ' ' || c = '\t' || c = '\n' || c = '\r' || c = '\x0b' || c = '\x0c'

/-- Matcher for the optional country suffix `(?:\s*,\s*([A-Za-z]{2}))?$` that
follows the code group: `some none` for an empty remainder, `some (some cc)`
for a comma-separated two-letter code, `none` when the remainder matches
neither alternative. -/
def zipSuffixMatch (cs : List Char) : Option (Option (List Char)) :=
  if cs.isEmpty then some none
  else
    match cs.dropWhile isJsSpace with
    | ',' :: rest =>
      (match rest.dropWhile isJsSpace with
       | [c1, c2] => if c1.isAlpha && c2.isAlpha then some (some [c1, c2]) else none
       | _ => none)
    | _ => none

/-- `ZIP_QUERY_REGEX.exec` for the mobile pattern
`/^([A-Za-z0-9-]{3,10})(?:\s*,\s*([A-Za-z]{2}))?$/`
(mobile/src/services/openWeather.ts:228).  Because the characters the suffix
may start with (whitespace, `,`) are disjoint from the code group's character
class, the backtracking regex accepts exactly when the maximal leading
`[A-Za-z0-9-]` run has length 3–10 and the remainder matches the suffix
alternative, which this function checks directly. -/
def zipExecMobile (s : String) : Option (String × Option String) :=
  let cs := s.data
  let core := cs.takeWhile isZipChar
  let rest := cs.dropWhile isZipChar
  if 3 ≤ core.length && core.length ≤ 10 then
    match zipSuffixMatch rest with
    | some octry => some (String.mk core, octry.map String.mk)
    | none => none
  else none

/-- `ZIP_QUERY_REGEX.exec` for the web pattern
`/^(?=.*\d)([A-Za-z0-9-]{3,10})(?:\s*,\s*([A-Za-z]{2}))?$/`
(src/services/openWeather.ts:246): the mobile pattern with the added
lookahead requiring a digit somewhere in the subject. -/
def zipExecWeb (s : String) : Option (String × Option String) :=
  if s.data.any Char.isDigit then zipExecMobile s else none

/-- `(rawCountry ?? 'US').toUpperCase()` applied to the captured country group
by both regex consumers (src/services/openWeather.ts:315 and 404). -/
def zipCountryOf (rawCountry : Option String) : String :=
  strUpper (rawCountry.getD "US")

/-- `buildLocationKey` (src/services/openWeather.ts:248-254): the identity key
is the normalized name/state/country plus coordinates.  The source joins the
five parts with `'|'`; the key is modelled as the tuple itself, whose equality
coincides with the joined string's for separator-free data. -/
def buildLocationKey (location : GeoLocation) : String × String × String × ℚ × ℚ :=
  (strLower (strTrim location.name),
   ((location.state.map (fun s => strLower (strTrim s))).getD ""),
   strUpper (strTrim location.country),
   location.lat,
   location.lon)

/-- `dedupeLocations` (src/services/openWeather.ts:256-268): keep the first
occurrence of each location key, with the `Set` of seen keys as a list. -/
def dedupeLocationsGo (seen : List (String × String × String × ℚ × ℚ)) :
    List GeoLocation → List GeoLocation
  | [] => []
  | l :: rest =>
    if buildLocationKey l ∈ seen then dedupeLocationsGo seen rest
    else l :: dedupeLocationsGo (buildLocationKey l :: seen) rest

/-- `dedupeLocations` entry point. -/
def dedupeLocations (locations : List GeoLocation) : List GeoLocation :=
  dedupeLocationsGo [] locations

/-- `LocationSuggestion`. -/
structure LocationSuggestion where
  location : GeoLocation
  searchValue : String
deriving DecidableEq

/-- `dedupeSuggestions` (src/services/openWeather.ts:292-302): keep the first
suggestion per location key. -/
def dedupeSuggestionsGo (seen : List (String × String × String × ℚ × ℚ)) :
    List LocationSuggestion → List LocationSuggestion
  | [] => []
  | item :: rest =>
    if buildLocationKey item.location ∈ seen then dedupeSuggestionsGo seen rest
    else item :: dedupeSuggestionsGo (buildLocationKey item.location :: seen) rest

/-- `dedupeSuggestions` entry point. -/
def dedupeSuggestions (items : List LocationSuggestion) : List LocationSuggestion :=
  dedupeSuggestionsGo [] items

/-- The postal-lookup candidates of `searchLocationSuggestions`
(src/services/openWeather.ts:312-325), with the zip geocoding endpoint passed
in as `zipLookup`. -/
def zipSuggestionsFor (zipLookup : String → String → Option GeoLocation)
    (trimmedQuery : String) : List LocationSuggestion :=
  match zipExecWeb trimmedQuery with
  | some (zip, rawCountry) =>
    let country := zipCountryOf rawCountry
    if country = "US" then
      match zipLookup zip country with
      | some zipResult => [{ location := zipResult, searchValue := zip }]
      | none => []
    else []
  | none => []

/-- The ranked free-text candidates of `searchLocationSuggestions`
(src/services/openWeather.ts:327-346): the best match first, then the
remaining US-filtered results in provider order.  The source removes the best
candidate from the remainder by object identity (`result !== bestPrimary`);
since `pickBestMatch` returns the stable first minimum, that object is the
first occurrence of its value, so identity removal is `List.erase`. -/
def primarySuggestionsFor (regionNames : String → Option String)
    (geocodeResults : String → List GeoLocation)
    (trimmedQuery : String) : List LocationSuggestion :=
  let primaryResults := filterUsLocations (geocodeResults trimmedQuery)
  match pickBestMatch regionNames trimmedQuery primaryResults with
  | some bestPrimary =>
    { location := bestPrimary, searchValue := formatUsLocationLabel bestPrimary } ::
      (primaryResults.erase bestPrimary).map (fun result =>
        { location := result, searchValue := formatUsLocationLabel result })
  | none =>
    primaryResults.map (fun result =>
      { location := result, searchValue := formatUsLocationLabel result })

/-- The comma-fallback candidates of `searchLocationSuggestions`
(src/services/openWeather.ts:348-357). -/
def fallbackSuggestionsFor (geocodeResults : String → List GeoLocation)
    (trimmedQuery : String) : List LocationSuggestion :=
  if strIncludes trimmedQuery "," then
    let cityOnly := beforeFirstComma trimmedQuery
    let fallbackQuery := strTrim cityOnly
    if 2 ≤ fallbackQuery.length && strLower fallbackQuery ≠ strLower trimmedQuery then
      (filterUsLocations (geocodeResults fallbackQuery)).map (fun result =>
        { location := result, searchValue := formatUsLocationLabel result })
    else []
  else []

/-- `searchLocationSuggestions` (src/services/openWeather.ts:304-360), with the
two network endpoints passed in.  The sequential `suggestions.push` calls of
the source build exactly the concatenation of the three candidate groups in
priority order. -/
def searchLocationSuggestions (regionNames : String → Option String)
    (zipLookup : String → String → Option GeoLocation)
    (geocodeResults : String → List GeoLocation)
    (query : String) : List LocationSuggestion :=
  let trimmedQuery := strTrim query
  if trimmedQuery.length < 2 then []
  else
    (dedupeSuggestions
      (zipSuggestionsFor zipLookup trimmedQuery ++
       primarySuggestionsFor regionNames geocodeResults trimmedQuery ++
       fallbackSuggestionsFor geocodeResults trimmedQuery)).take 5

/-- The `units` request parameter. -/
inductive TempUnits where
  | metric : TempUnits
  | imperial : TempUnits
deriving DecidableEq

/-- The consumed part of a short-range entry's `main` block. -/
structure ForecastMain where
  temp : ℚ
  feels_like : ℚ
  humidity : ℚ
deriving DecidableEq

/-- The consumed part of a short-range entry's `wind` block. -/
structure ForecastWind where
  speed : ℚ
  gust : Option ℚ
deriving DecidableEq

/-- `ForecastEntry` (one 3-hourly sample), restricted to the consumed fields;
`clouds` is the optional `clouds.all` percentage and `rain3h`/`snow3h` the
optional `rain['3h']`/`snow['3h']` volumes. -/
structure ForecastEntry where
  dt : ℤ
  main : ForecastMain
  weather : List WeatherCond
  clouds : Option ℚ
  wind : ForecastWind
  visibility : ℚ
  pop : Option JsNum
  rain3h : Option JsNum
  snow3h : Option JsNum
deriving DecidableEq

/-- `OptimisticHighlight`. -/
structure OptimisticHighlight where
  id : String
  title : String
  takeaway : String
  detail : Option String
  metricLabel : Option String
  metricValue : Option String
  heroStatValue : Option String
  heroStatLabel : Option String
deriving DecidableEq

/-- `average` (src/services/openWeather.ts:654-659): 0 for an empty list. -/
def average (values : List ℚ) : ℚ :=
  if values.isEmpty then 0 else values.sum / (values.length : ℚ)

/-- `toMiles`. -/
def toMiles (meters : ℚ) : ℚ := meters / 1609.34

/-- `toKilometers`. -/
def toKilometers (meters : ℚ) : ℚ := meters / 1000

/-- `metersPerSecondToKph`. -/
def metersPerSecondToKph (mps : ℚ) : ℚ := mps * 3.6

/-- JavaScript template-literal rendering of a number, exact for the
integer-valued data these strings interpolate. -/
def qToString (q : ℚ) : String :=
  if q.den = 1 then toString q.num else toString q

/-- `number.toFixed(1)`, modelled exactly on rationals. -/
def toFixedOne (q : ℚ) : String :=
  let sign := if q < 0 then "-" else ""
  let n := ⌊|q| * 10 + 1/2⌋
  sign ++ toString (n / 10) ++ "." ++ toString (n % 10)

/-- `buildSkySummary` (src/services/openWeather.ts:665-691). -/
def buildSkySummary (entry : ForecastEntry) : String :=
  let condition := ((entry.weather.head?).map (·.main)).getD "Clear"
  let cloudiness := entry.clouds.getD 0
  match condition with
  | "Clear" => "Sun-forward skies and bright horizons on deck."
  | "Clouds" =>
    if 70 < cloudiness then "Soft, filtered daylight keeps the vibe relaxed."
    else "Blue sky breaks trade places with playful clouds."
  | "Rain" => "Nature is topping off the reservoirs—perfect excuse for a cozy plan."
  | "Drizzle" => "Nature is topping off the reservoirs—perfect excuse for a cozy plan."
  | "Thunderstorm" => "Electric skies bring drama—front-row seats from indoors highly encouraged."
  | "Snow" => "Fresh flakes incoming—ideal backdrop for quiet walks and winter photos."
  | "Mist" => "Dreamy mist sets the scene—time to embrace the cinematic atmosphere."
  | "Fog" => "Dreamy mist sets the scene—time to embrace the cinematic atmosphere."
  | "Haze" => "Dreamy mist sets the scene—time to embrace the cinematic atmosphere."
  | _ => "Atmosphere is mixing things up—a great day to follow your curiosity."

/-- The clamped pop fraction of one entry (src/services/openWeather.ts:702-708):
`entry.pop ?? 0`, NaN collapsed to 0, clamped to `[0,1]`. -/
def clampedPopOf (entry : ForecastEntry) : ℚ :=
  match entry.pop with
  | some JsNum.nan => 0
  | some (JsNum.num q) => clampUnit q
  | none => clampUnit 0

/-- The "wet" test of the dryness slot (src/services/openWeather.ts:714-721):
nonzero rain/snow volume, a wet weather condition, or pop ≥ 0.4. -/
def isWetEntry (entry : ForecastEntry) : Bool :=
  let precipitationVolume :=
    jsAdd (entry.rain3h.getD (JsNum.num 0)) (entry.snow3h.getD (JsNum.num 0))
  let wetWeather := entry.weather.any (fun condition =>
    (["Rain", "Drizzle", "Thunderstorm", "Snow"] : List String).contains condition.main)
  let highPop := jsGe (entry.pop.getD (JsNum.num 0)) (2/5)
  jsGt precipitationVolume 0 || wetWeather || highPop

/-- `craftHighlights` (src/services/openWeather.ts:693-909), with
`toLocaleTimeString` passed in as `fmtTime` (it renders the epoch-seconds
argument in the environment's locale).  The sequential `highlights.push`
calls build exactly the six-slot list returned at the end. -/
def craftHighlights (fmtTime : ℤ → String) (horizon : List ForecastEntry)
    (units : TempUnits) (timezoneOffsetSeconds : ℤ) : List OptimisticHighlight :=
  match horizon with
  | [] => []
  | first :: restEntries =>
    let hz := first :: restEntries
    let normalizedPopValues := hz.map clampedPopOf
    let popsWithData := hz.filterMap (fun entry =>
      match entry.pop with
      | some (JsNum.num q) => some q
      | _ => none)
    let wetBlocks := (hz.filter isWetEntry).length
    let avgPopValue := if normalizedPopValues.isEmpty then 0 else average normalizedPopValues
    let dryShareFromPop := 1 - avgPopValue
    let wetPenalty := 1 - (wetBlocks : ℚ) / (hz.length : ℚ)
    let drynessRatio := max 0 (min 1 (dryShareFromPop * max wetPenalty 0))
    let avgDryness := jsRound (drynessRatio * 100)
    let rainChancePercent := jsRound ((1 - drynessRatio) * 100)
    let cloudOpenings := jsRound (average (hz.map (fun entry => 100 - entry.clouds.getD 0)))
    let avgCloudCover := jsRound (average (hz.map (fun entry => entry.clouds.getD 0)))
    let humidity := first.main.humidity
    let feelsGap := first.main.feels_like - first.main.temp
    let visibilityMeters := first.visibility
    let windSpeed := first.wind.speed
    let gust := first.wind.gust
    let isMetric := units = TempUnits.metric
    let visibilityValue := if isMetric then toKilometers visibilityMeters else toMiles visibilityMeters
    let visibilityUnits := if isMetric then "km" else "mi"
    let windValue := if isMetric then metersPerSecondToKph windSpeed else windSpeed
    let windUnits := if isMetric then "km/h" else "mph"
    -- `gust ? … : undefined`: a missing or zero (falsy) gust yields undefined
    let gustValue :=
      match gust with
      | some g => if g = 0 then none else some (if isMetric then metersPerSecondToKph g else g)
      | none => none
    let unitsSuffix := if units = TempUnits.metric then "°C" else "°F"
    let feelsOffset := jsRound feelsGap
    let feelsOffsetDisplay := toString feelsOffset.natAbs ++ unitsSuffix
    let feelsSignedDisplay :=
      if feelsOffset = 0 then "0" ++ unitsSuffix
      else (if 0 < feelsOffset then "+" else "") ++ toString feelsOffset ++ unitsSuffix
    let drynessHighlight : OptimisticHighlight :=
      if 55 ≤ avgDryness then
        { id := "dryness", title := "Dry Skies Bias"
          takeaway := toString avgDryness ++ "% odds you stay splash-free."
          detail := some (if avgDryness = 100 then
              "Skies look bone-dry—perfect excuse to plan something outside."
            else "Still, a pocket umbrella doubles as a sunshade—win-win.")
          metricLabel := some "Rain chance"
          metricValue := some (toString rainChancePercent ++ "%")
          heroStatValue := some (toString avgDryness ++ "%")
          heroStatLabel := some "Dry skies odds" }
      else
        { id := "refresh", title := "Sky Refills Incoming"
          takeaway := toString avgDryness ++ "% dry-window potential between the refills."
          detail := some (if popsWithData.isEmpty then
              "Radar hints at on-and-off showers—embrace indoor cozy time and watch for quick clearing moments."
            else "Rain chances near " ++ toString rainChancePercent ++
              "% mean the plants win—use the " ++ toString avgDryness ++
              "% dry breaks for fresh air or errand dashes.")
          metricLabel := some "Rain chance"
          metricValue := some (toString rainChancePercent ++ "%")
          heroStatValue := some (toString avgDryness ++ "%")
          heroStatLabel := some "Dry window odds" }
    let cloudsHighlight : OptimisticHighlight :=
      { id := "clouds", title := "Face Melt Factor"
        takeaway := toString cloudOpenings ++
          "% odds the sun shows up so hard your face melts (in the best way)."
        detail := some "Cue the SPF and the grin—the sky’s ready for full-send sunshine sessions."
        metricLabel := some "Avg cloud cover"
        metricValue := some (toString avgCloudCover ++ "%")
        heroStatValue := some (toString cloudOpenings ++ "%")
        heroStatLabel := some "Sun splash" }
    let comfortHighlight : OptimisticHighlight :=
      if |feelsGap| ≤ 3/2 then
        { id := "feels-like", title := "Comfort Index"
          takeaway := "Feels-like temps match the actual read—no wardrobe curveballs."
          detail := none
          metricLabel := some "Feels difference", metricValue := some feelsSignedDisplay
          heroStatValue := some feelsOffsetDisplay, heroStatLabel := some "Feels diff" }
      else if feelsGap < 0 then
        { id := "cooler", title := "Built-In Breeze"
          takeaway := "Feels about " ++ toString feelsOffset.natAbs ++
            "° cooler than the thermometer—prime for active plans."
          detail := none
          metricLabel := some "Feels difference", metricValue := some feelsSignedDisplay
          heroStatValue := some feelsOffsetDisplay, heroStatLabel := some "Feels cooler" }
      else
        { id := "warmer", title := "Cozy Warmth"
          takeaway := "Feels around " ++ toString feelsOffset ++
            "° warmer—nature's heated blanket."
          detail := none
          metricLabel := some "Feels difference", metricValue := some feelsSignedDisplay
          heroStatValue := some feelsOffsetDisplay, heroStatLabel := some "Feels warmer" }
    let humidityHighlight : OptimisticHighlight :=
      if humidity ≤ 60 then
        { id := "humidity", title := "Ideal Hair Day"
          takeaway := qToString humidity ++ "% humidity keeps frizz in check and comfort high."
          detail := none
          metricLabel := some "Humidity", metricValue := some (qToString humidity ++ "%")
          heroStatValue := some (qToString humidity ++ "%"), heroStatLabel := some "Humidity" }
      else
        { id := "hydration", title := "Humidity Bonus"
          takeaway := qToString humidity ++
            "% humidity means houseplants and skin stay happily hydrated."
          detail := none
          metricLabel := some "Humidity", metricValue := some (qToString humidity ++ "%")
          heroStatValue := some (qToString humidity ++ "%"), heroStatLabel := some "Humidity" }
    let visDisplay := toFixedOne visibilityValue ++ " " ++ visibilityUnits
    let visibilityHighlight : OptimisticHighlight :=
      if 8000 ≤ visibilityMeters then
        { id := "visibility", title := "Long-Range Views"
          takeaway := "Visibility stretches roughly " ++ visDisplay ++ "—panorama time!"
          detail := none
          metricLabel := some "Visibility", metricValue := some visDisplay
          heroStatValue := some visDisplay, heroStatLabel := some "Visibility" }
      else
        { id := "cozy-views", title := "Cozy Vibes"
          takeaway := "Soft-focus air invites slow moments and window-watching."
          detail := some ("Queue up a playlist and enjoy the diffused light toward " ++
            fmtTime (first.dt + timezoneOffsetSeconds) ++ ".")
          metricLabel := some "Visibility", metricValue := some visDisplay
          heroStatValue := some visDisplay, heroStatLabel := some "Visibility" }
    let gentleBreezeThreshold : ℚ := if isMetric then 25 else 15.5
    let breezy := windValue ≤ gentleBreezeThreshold
    let windDisplay := toFixedOne windValue ++ " " ++ windUnits
    let windMetricLabel := if gustValue.isSome then "Wind / gust" else "Wind speed"
    let windMetricValue :=
      match gustValue with
      | some g => toFixedOne windValue ++ " / " ++ toFixedOne g ++ " " ++ windUnits
      | none => windDisplay
    let windHighlight : OptimisticHighlight :=
      if breezy then
        { id := "breeze", title := "Friendly Breeze"
          takeaway := toFixedOne windValue ++ " " ++ windUnits ++
            " winds keep the air feeling fresh."
          detail := some "Perfect kite or sail training weather."
          metricLabel := some windMetricLabel, metricValue := some windMetricValue
          heroStatValue := some windDisplay, heroStatLabel := some "Wind speed" }
      else
        { id := "wind-energy", title := "Wind Energy Mode"
          takeaway := toFixedOne windValue ++ " " ++ windUnits ++
            " winds—renewable energy fans, rejoice!"
          detail := some (match gustValue with
            | some g => "Gusts near " ++ toFixedOne g ++ " " ++ windUnits ++
                ". Secure loose items then enjoy the drama."
            | none => "Secure patio furniture, then lean into the dynamic skies.")
          metricLabel := some windMetricLabel, metricValue := some windMetricValue
          heroStatValue := some windDisplay, heroStatLabel := some "Wind speed" }
    [drynessHighlight, cloudsHighlight, comfortHighlight, humidityHighlight,
     visibilityHighlight, windHighlight]

/-- The consumed part of `ForecastResponse` (entry list plus the city's UTC
offset in seconds). -/
structure ForecastResponse where
  list : List ForecastEntry
  city_timezone : ℤ
deriving DecidableEq

/-- The `temperature` block of the produced forecast. -/
structure TemperatureBlock where
  current : ℚ
  feelsLike : ℚ
  high : ℚ
  low : ℚ
  units : TempUnits
deriving DecidableEq

/-- `OptimisticForecast`; `nextUpdate` is a `Date` modelled by epoch seconds. -/
structure OptimisticForecast where
  locationLabel : String
  nextUpdate : ℚ
  temperature : TemperatureBlock
  skySummary : String
  highlights : List OptimisticHighlight
  extendedOutlook : OptimisticExtendedOutlook
  hourlyOutlook : Option (List OptimisticHourlyOutlook)
  coordinates_lat : ℚ
  coordinates_lon : ℚ
deriving DecidableEq

/-- The response-assembly part of `fetchOptimisticForecast`
(src/services/openWeather.ts:911-979), with the resolved location, the two
fetched responses and the locale time formatter passed in.  On an empty
short-range series `horizon[0]` is `undefined` and the immediate
`first.main.temp` access throws, so the model returns `none` there.
`Math.max(...temps)`/`Math.min(...temps)` over the nonempty window are folds
seeded with the window's first temperature (a member of the list). -/
def fetchOptimisticForecast (fmtTime : ℤ → String) (location : GeoLocation)
    (forecast : ForecastResponse) (extendedResponse : Option ExtendedForecastResponse)
    (units : TempUnits) : Option OptimisticForecast :=
  match forecast.list.take 8 with
  | [] => none
  | first :: restH =>
    let horizon := first :: restH
    let temps := horizon.map (fun entry => entry.main.temp)
    let temperature : TemperatureBlock :=
      { current := first.main.temp
        feelsLike := first.main.feels_like
        high := temps.foldl max first.main.temp
        low := temps.foldl min first.main.temp
        units := units }
    let skySummary := buildSkySummary first
    let highlights := craftHighlights fmtTime horizon units forecast.city_timezone
    let extendedOutlook := extendedOutlookOf extendedResponse
    let hourlyOutlook :=
      match extendedResponse with
      | some r =>
        (match r.hourly with
         | some hourlyEntries =>
           if hourlyEntries.isEmpty then none
           else some (buildHourlyOutlook (some hourlyEntries) (r.timezone_offset.getD 0))
         | none => none)
      | none => none
    some { locationLabel := formatUsLocationLabel location
           nextUpdate := ((first.dt + forecast.city_timezone : ℤ) : ℚ)
           temperature := temperature
           skySummary := skySummary
           highlights := highlights
           extendedOutlook := extendedOutlook
           hourlyOutlook := hourlyOutlook
           coordinates_lat := location.lat
           coordinates_lon := location.lon }

/-! ## Theorems -/

/-- C9: `clampPopPercent` returns `null` exactly for an absent or NaN raw
value; otherwise it returns the integer nearest to 100 times the value clamped
to `[0,1]` (half-up), an integer in `[0,100]`; `pop = 1.7` normalizes to 100
and an absent pop to `null`. -/
theorem clampPopPercent_spec :
    (∀ v : Option JsNum, clampPopPercent v = none ↔ (v = none ∨ v = some JsNum.nan)) ∧
    (∀ q : ℚ, ∃ r : ℤ, clampPopPercent (some (JsNum.num q)) = some r ∧
      0 ≤ r ∧ r ≤ 100 ∧ |(r : ℚ) - clampUnit q * 100| ≤ 1/2) ∧
    clampPopPercent (some (JsNum.num (17/10))) = some 100 ∧
    clampPopPercent none = none := by
  refine ⟨?_, ?_, ?_, rfl⟩
  · intro v
    match v with
    | none => simp [clampPopPercent]
    | some JsNum.nan => simp [clampPopPercent]
    | some (JsNum.num q) => simp [clampPopPercent]
  · intro q
    refine ⟨jsRound (clampUnit q * 100), rfl, ?_, ?_, ?_⟩
    · have h0 : (0 : ℚ) ≤ clampUnit q := le_min (le_max_right q 0) zero_le_one
      have h : (0 : ℚ) ≤ clampUnit q * 100 + 1/2 := by positivity
      simp only [jsRound]
      exact Int.le_floor.mpr (by exact_mod_cast h)
    · have h1 : clampUnit q ≤ 1 := min_le_right _ _
      have h : clampUnit q * 100 + 1/2 < 101 := by nlinarith
      simp only [jsRound]
      have := Int.floor_lt.mpr (by exact_mod_cast h : clampUnit q * 100 + 1/2 < ((101 : ℤ) : ℚ))
      omega
    · simp only [jsRound]
      have hle : ((⌊clampUnit q * 100 + 1/2⌋ : ℤ) : ℚ) ≤ clampUnit q * 100 + 1/2 :=
        Int.floor_le _
      have hlt : clampUnit q * 100 + 1/2 < ((⌊clampUnit q * 100 + 1/2⌋ : ℤ) : ℚ) + 1 :=
        Int.lt_floor_add_one _
      rw [abs_le]
      constructor <;> [linarith; linarith]
  · have h1 : max (17/10 : ℚ) 0 = 17/10 := max_eq_left (by norm_num)
    have h2 : min (17/10 : ℚ) 1 = 1 := min_eq_right (by norm_num)
    have h3 : jsRound (100 : ℚ) = 100 := by
      simp only [jsRound]
      rw [Int.floor_eq_iff]
      constructor <;> norm_num
    simp [clampPopPercent, clampUnit, h1, h2, h3]

/-- C1 counterexample: in the composed pipeline an invalid primary entry (NaN
max) claims the merge slot for its UTC day, displacing the valid legacy entry
for the same day; the invalid entry is filtered only afterwards, so the
assembled outlook differs from the one obtained by filtering before the
merge/cap — the invalid entry did count toward (and displaced a valid entry
from) the cap. -/
theorem extendedPipeline_filter_after_cap_counterexample :
    buildExtendedOutlook
        (some (mergeDailyEntries
          [⟨0, none, none, ⟨none, some JsNum.nan, some (JsNum.num 10)⟩, [], none⟩]
          [⟨3600, none, none, ⟨none, some (JsNum.num 20), some (JsNum.num 10)⟩, [], none⟩])) 0 ≠
      buildExtendedOutlook
        (some (mergeDailyEntries
          (([⟨0, none, none, ⟨none, some JsNum.nan, some (JsNum.num 10)⟩, [], none⟩] :
              List DailyForecastEntry).filter tempValid)
          (([⟨3600, none, none, ⟨none, some (JsNum.num 20), some (JsNum.num 10)⟩, [], none⟩] :
              List DailyForecastEntry).filter tempValid))) 0 := by
  intro h
  exact List.noConfusion
    ((show ([] : List OptimisticDailyOutlook) =
        buildExtendedOutlook
          (some (mergeDailyEntries
            [⟨0, none, none, ⟨none, some JsNum.nan, some (JsNum.num 10)⟩, [], none⟩]
            [⟨3600, none, none, ⟨none, some (JsNum.num 20), some (JsNum.num 10)⟩, [], none⟩])) 0
      from rfl).trans h)

/-- C1 (amended): within `buildExtendedOutlook` itself the temperature-validity
filter precedes the 10-day cap, so invalid entries never count toward or
displace valid entries from that cap — every assembled day arises from a valid
input entry and at most 10 days are produced; the merge stage's own cap,
however, runs before this filter (see the counterexample). -/
theorem buildExtendedOutlook_filter_before_cap (entries : List DailyForecastEntry) (off : ℤ) :
    buildExtendedOutlook (some entries) off =
        buildExtendedOutlook (some (entries.filter tempValid)) off ∧
      (buildExtendedOutlook (some entries) off).length ≤ 10 ∧
      ∀ d ∈ buildExtendedOutlook (some entries) off,
        ∃ e ∈ entries, tempValid e = true ∧ d = buildOutlookDay off e := by
  refine ⟨?_, ?_, ?_⟩
  · simp [buildExtendedOutlook, List.filter_filter]
  · simp only [buildExtendedOutlook, List.length_map]
    exact List.length_take_le 10 _
  · intro d hd
    simp only [buildExtendedOutlook, List.mem_map] at hd
    obtain ⟨e, he, rfl⟩ := hd
    have he' := List.mem_of_mem_take he
    have := List.mem_filter.mp he'
    exact ⟨e, this.1, this.2, rfl⟩

/-- C1 witness: instantiation of the amended theorem at a concrete valid
entry. -/
theorem buildExtendedOutlook_filter_before_cap_witness :
    ∃ e ∈ ([⟨3600, none, none, ⟨none, some (JsNum.num 20), some (JsNum.num 10)⟩, [], none⟩] :
        List DailyForecastEntry), tempValid e = true ∧
      buildOutlookDay 0 ⟨3600, none, none, ⟨none, some (JsNum.num 20), some (JsNum.num 10)⟩, [], none⟩ =
        buildOutlookDay 0 e :=
  (buildExtendedOutlook_filter_before_cap
      [⟨3600, none, none, ⟨none, some (JsNum.num 20), some (JsNum.num 10)⟩, [], none⟩] 0).2.2
    (buildOutlookDay 0 ⟨3600, none, none, ⟨none, some (JsNum.num 20), some (JsNum.num 10)⟩, [], none⟩)
    (by
      show buildOutlookDay 0 ⟨3600, none, none, ⟨none, some (JsNum.num 20), some (JsNum.num 10)⟩, [], none⟩ ∈
        [buildOutlookDay 0 ⟨3600, none, none, ⟨none, some (JsNum.num 20), some (JsNum.num 10)⟩, [], none⟩]
      exact List.mem_singleton.mpr rfl)

/-- C10: every assembled outlook day's `dayAverage` is the source entry's
`temp.day` whenever that field is a (possibly NaN) number, and otherwise the
mean of the entry's max and min temperatures. -/
theorem buildExtendedOutlook_dayAverage (entries : List DailyForecastEntry) (off : ℤ) :
    ∀ d ∈ buildExtendedOutlook (some entries) off,
      ∃ e ∈ entries, tempValid e = true ∧
        d.dayAverage = (match e.temp.day with
          | some v => v
          | none => JsNum.num ((numValD e.temp.max 0 + numValD e.temp.min 0) / 2)) := by
  intro d hd
  simp only [buildExtendedOutlook, List.mem_map] at hd
  obtain ⟨e, he, rfl⟩ := hd
  have he' := List.mem_of_mem_take he
  have hm := List.mem_filter.mp he'
  refine ⟨e, hm.1, hm.2, ?_⟩
  simp only [buildOutlookDay]

/-- C10 witness: instantiation at a concrete entry with no `temp.day`. -/
theorem buildExtendedOutlook_dayAverage_witness :
    ∃ e ∈ ([⟨0, none, none, ⟨none, some (JsNum.num 30), some (JsNum.num 10)⟩, [], none⟩] :
        List DailyForecastEntry), tempValid e = true ∧
      (buildOutlookDay 0 ⟨0, none, none, ⟨none, some (JsNum.num 30), some (JsNum.num 10)⟩, [], none⟩).dayAverage =
        (match e.temp.day with
          | some v => v
          | none => JsNum.num ((numValD e.temp.max 0 + numValD e.temp.min 0) / 2)) :=
  buildExtendedOutlook_dayAverage
    [⟨0, none, none, ⟨none, some (JsNum.num 30), some (JsNum.num 10)⟩, [], none⟩] 0
    (buildOutlookDay 0 ⟨0, none, none, ⟨none, some (JsNum.num 30), some (JsNum.num 10)⟩, [], none⟩)
    (by
      show buildOutlookDay 0 ⟨0, none, none, ⟨none, some (JsNum.num 30), some (JsNum.num 10)⟩, [], none⟩ ∈
        [buildOutlookDay 0 ⟨0, none, none, ⟨none, some (JsNum.num 30), some (JsNum.num 10)⟩, [], none⟩]
      exact List.mem_singleton.mpr rfl)

/-- Members of the keyed first-wins pass come from the input. -/
theorem applyKeyed_subset (seen : List ℤ) (l : List DailyForecastEntry) :
    ∀ e ∈ applyKeyed seen l, e ∈ l := by
  induction l generalizing seen with
  | nil => intro e he; simp [applyKeyed] at he
  | cons a t ih =>
    intro e he
    by_cases h : mergeDayKey a.dt ∈ seen
    · simp only [applyKeyed, if_pos h] at he
      exact List.mem_cons_of_mem a (ih seen e he)
    · simp only [applyKeyed, if_neg h, List.mem_cons] at he
      rcases he with rfl | he
      · exact List.mem_cons_self _ _
      · exact List.mem_cons_of_mem a (ih _ e he)

/-- No member of the keyed pass carries a key that was already seen. -/
theorem applyKeyed_key_not_seen (seen : List ℤ) (l : List DailyForecastEntry) :
    ∀ e ∈ applyKeyed seen l, mergeDayKey e.dt ∉ seen := by
  induction l generalizing seen with
  | nil => intro e he; simp [applyKeyed] at he
  | cons a t ih =>
    intro e he
    by_cases h : mergeDayKey a.dt ∈ seen
    · simp only [applyKeyed, if_pos h] at he
      exact ih seen e he
    · simp only [applyKeyed, if_neg h, List.mem_cons] at he
      rcases he with rfl | he
      · exact h
      · intro hc
        exact ih _ e he (List.mem_cons_of_mem _ hc)

/-- A member of the keyed pass over `l1 ++ l2` either comes from `l1`, or comes
from a pass over `l2` whose seen-set extends the original one and covers every
key of `l1`. -/
theorem applyKeyed_append (seen : List ℤ) (l1 l2 : List DailyForecastEntry) :
    ∀ x ∈ applyKeyed seen (l1 ++ l2), x ∈ l1 ∨
      ∃ seen2 : List ℤ, (∀ y ∈ l1, mergeDayKey y.dt ∈ seen2) ∧
        (∀ k ∈ seen, k ∈ seen2) ∧ x ∈ applyKeyed seen2 l2 := by
  induction l1 generalizing seen with
  | nil =>
    intro x hx
    exact Or.inr ⟨seen, by simp, fun k hk => hk, by simpa using hx⟩
  | cons a t ih =>
    intro x hx
    by_cases h : mergeDayKey a.dt ∈ seen
    · simp only [List.cons_append, applyKeyed, if_pos h] at hx
      rcases ih seen x hx with hl | ⟨seen2, hcov, hsub, hx2⟩
      · exact Or.inl (List.mem_cons_of_mem a hl)
      · refine Or.inr ⟨seen2, ?_, hsub, hx2⟩
        intro y hy
        rcases List.mem_cons.mp hy with rfl | hy
        · exact hsub _ h
        · exact hcov y hy
    · simp only [List.cons_append, applyKeyed, if_neg h, List.mem_cons] at hx
      rcases hx with rfl | hx
      · exact Or.inl (List.mem_cons_self x t)
      · rcases ih (mergeDayKey a.dt :: seen) x hx with hl | ⟨seen2, hcov, hsub, hx2⟩
        · exact Or.inl (List.mem_cons_of_mem a hl)
        · refine Or.inr ⟨seen2, ?_, ?_, hx2⟩
          · intro y hy
            rcases List.mem_cons.mp hy with rfl | hy
            · exact hsub _ (List.mem_cons_self _ _)
            · exact hcov y hy
          · exact fun k hk => hsub k (List.mem_cons_of_mem _ hk)

/-- The keyed pass keeps at most one entry per UTC-day key. -/
theorem applyKeyed_pairwise_keys (seen : List ℤ) (l : List DailyForecastEntry) :
    (applyKeyed seen l).Pairwise (fun a b => mergeDayKey a.dt ≠ mergeDayKey b.dt) := by
  induction l generalizing seen with
  | nil => simp [applyKeyed]
  | cons a t ih =>
    by_cases h : mergeDayKey a.dt ∈ seen
    · simpa only [applyKeyed, if_pos h] using ih seen
    · simp only [applyKeyed, if_neg h]
      refine List.Pairwise.cons ?_ (ih _)
      intro b hb
      have := applyKeyed_key_not_seen _ _ b hb
      intro hc
      exact this (hc ▸ List.mem_cons_self _ _)

/-- C2: `mergeDailyEntries` keys entries by UTC calendar day (the result has
pairwise-distinct day keys), keeps the primary source's entry whenever the
primary source has an entry for the same day key, is sorted ascending by
timestamp, returns at most 10 entries, and returns only input entries. -/
theorem mergeDailyEntries_spec (primary fallback : List DailyForecastEntry) :
    (mergeDailyEntries primary fallback).length ≤ 10 ∧
      List.Sorted dtLe (mergeDailyEntries primary fallback) ∧
      (mergeDailyEntries primary fallback).Pairwise
        (fun a b => mergeDayKey a.dt ≠ mergeDayKey b.dt) ∧
      (∀ e ∈ mergeDailyEntries primary fallback, e ∈ primary ∨ e ∈ fallback) ∧
      (∀ e ∈ mergeDailyEntries primary fallback,
        (∃ p ∈ primary, mergeDayKey p.dt = mergeDayKey e.dt) → e ∈ primary) := by
  have hmem : ∀ e ∈ mergeDailyEntries primary fallback,
      e ∈ applyKeyed [] (primary ++ fallback) := by
    intro e he
    have h1 := List.mem_of_mem_take he
    exact ((List.perm_insertionSort dtLe _).mem_iff).mp h1
  refine ⟨?_, ?_, ?_, ?_, ?_⟩
  · exact List.length_take_le _ _
  · exact (List.sorted_insertionSort dtLe _).sublist (List.take_sublist _ _)
  · have hp := applyKeyed_pairwise_keys [] (primary ++ fallback)
    have hperm := List.perm_insertionSort dtLe (applyKeyed [] (primary ++ fallback))
    have hsym : Symmetric (fun a b : DailyForecastEntry =>
        mergeDayKey a.dt ≠ mergeDayKey b.dt) := fun a b h => fun hc => h hc.symm
    have := (hperm.pairwise_iff @hsym).mpr hp
    exact this.sublist (List.take_sublist _ _)
  · intro e he
    exact List.mem_append.mp (applyKeyed_subset _ _ e (hmem e he))
  · intro e he ⟨p, hp, hkey⟩
    rcases applyKeyed_append [] primary fallback e (hmem e he) with h | ⟨seen2, hcov, _, he2⟩
    · exact h
    · exact absurd (hkey ▸ hcov p hp) (applyKeyed_key_not_seen seen2 fallback e he2)

/-- C2 witness: instantiation of the primary-precedence conjunct at concrete
one-entry lists sharing a UTC day. -/
theorem mergeDailyEntries_spec_witness :
    (⟨0, none, none, ⟨none, some (JsNum.num 1), some (JsNum.num 0)⟩, [], none⟩ :
        DailyForecastEntry) ∈
      ([⟨0, none, none, ⟨none, some (JsNum.num 1), some (JsNum.num 0)⟩, [], none⟩] :
        List DailyForecastEntry) :=
  (mergeDailyEntries_spec
      [⟨0, none, none, ⟨none, some (JsNum.num 1), some (JsNum.num 0)⟩, [], none⟩]
      [⟨3600, none, none, ⟨none, some (JsNum.num 2), some (JsNum.num 0)⟩, [], none⟩]).2.2.2.2
    ⟨0, none, none, ⟨none, some (JsNum.num 1), some (JsNum.num 0)⟩, [], none⟩
    (by
      show _ ∈ mergeDailyEntries _ _
      exact List.mem_cons_self _ _)
    ⟨⟨0, none, none, ⟨none, some (JsNum.num 1), some (JsNum.num 0)⟩, [], none⟩,
      List.mem_cons_self _ _, rfl⟩

/-- The assembled outlook never exceeds 10 days. -/
theorem buildExtendedOutlook_length_le (d : Option (List DailyForecastEntry)) (off : ℤ) :
    (buildExtendedOutlook d off).length ≤ 10 := by
  cases d with
  | none => simp [buildExtendedOutlook]
  | some entries =>
    simp only [buildExtendedOutlook, List.length_map]
    exact List.length_take_le _ _

/-- C4: failures of either extended-daily source are caught into `null`
(zero entries, no exception), the whole fetch composition and outlook assembly
are total, and the assembled outlook carries `isComplete = true` iff exactly
10 days were assembled, no message when complete, the fixed limited advisory
for 1–9 days, and the fixed unavailable advisory (with `isComplete = false`)
for zero days. -/
theorem extendedOutlook_policy (pOut : Except String ExtendedForecastResponse)
    (lOut : Except String LegacyDailyForecastResponse) (lat lon : ℚ) :
    (∀ msg, fetchPrimaryDailyForecast (Except.error msg) = none) ∧
    (∀ msg, fetchLegacyDailyForecast (Except.error msg) = none) ∧
    ((extendedOutlookOf (fetchDailyForecast pOut lOut lat lon)).isComplete = true ↔
      (extendedOutlookOf (fetchDailyForecast pOut lOut lat lon)).days.length = 10) ∧
    ((extendedOutlookOf (fetchDailyForecast pOut lOut lat lon)).days.length = 10 →
      (extendedOutlookOf (fetchDailyForecast pOut lOut lat lon)).message = none) ∧
    (1 ≤ (extendedOutlookOf (fetchDailyForecast pOut lOut lat lon)).days.length →
      (extendedOutlookOf (fetchDailyForecast pOut lOut lat lon)).days.length ≤ 9 →
      (extendedOutlookOf (fetchDailyForecast pOut lOut lat lon)).message =
        some EXTENDED_OUTLOOK_LIMITED_MESSAGE) ∧
    ((extendedOutlookOf (fetchDailyForecast pOut lOut lat lon)).days.length = 0 →
      (extendedOutlookOf (fetchDailyForecast pOut lOut lat lon)).message =
        some EXTENDED_OUTLOOK_UNAVAILABLE_MESSAGE ∧
      (extendedOutlookOf (fetchDailyForecast pOut lOut lat lon)).isComplete = false) := by
  refine ⟨fun _ => rfl, fun _ => rfl, ?_⟩
  generalize fetchDailyForecast pOut lOut lat lon = resp
  cases resp with
  | none =>
    refine ⟨by simp [extendedOutlookOf], ?_, ?_, ?_⟩ <;>
      simp [extendedOutlookOf]
  | some r =>
    have hlen := buildExtendedOutlook_length_le r.daily (r.timezone_offset.getD 0)
    by_cases he : (buildExtendedOutlook r.daily (r.timezone_offset.getD 0)).isEmpty
    · refine ⟨by simp [extendedOutlookOf, he], ?_, ?_, ?_⟩ <;>
        simp [extendedOutlookOf, he]
    · have hne : (buildExtendedOutlook r.daily (r.timezone_offset.getD 0)).length ≠ 0 := by
        simpa [List.isEmpty_iff_length_eq_zero] using he
      refine ⟨?_, ?_, ?_, ?_⟩
      · simp only [extendedOutlookOf, if_neg he]
        constructor
        · intro h
          have := of_decide_eq_true h
          simp only [EXTENDED_OUTLOOK_REQUIRED_DAYS] at this
          omega
        · intro h
          simp only [h]
          exact decide_eq_true (by simp [EXTENDED_OUTLOOK_REQUIRED_DAYS])
      · intro h
        simp only [extendedOutlookOf, if_neg he] at h ⊢
        have : decide (EXTENDED_OUTLOOK_REQUIRED_DAYS ≤
            (buildExtendedOutlook r.daily (r.timezone_offset.getD 0)).length) = true :=
          decide_eq_true (by simp only [EXTENDED_OUTLOOK_REQUIRED_DAYS]; omega)
        simp [this]
      · intro h1 h9
        simp only [extendedOutlookOf, if_neg he] at h1 h9 ⊢
        have : decide (EXTENDED_OUTLOOK_REQUIRED_DAYS ≤
            (buildExtendedOutlook r.daily (r.timezone_offset.getD 0)).length) = false := by
          simp only [decide_eq_false_iff_not, EXTENDED_OUTLOOK_REQUIRED_DAYS]
          omega
        simp [this]
      · intro h0
        simp only [extendedOutlookOf, if_neg he] at h0
        exact absurd h0 hne

/-- C4 witness: with both sources failing, the outlook degrades to the fixed
unavailable advisory with `isComplete = false`, without any exception. -/
theorem extendedOutlook_policy_witness :
    (extendedOutlookOf (fetchDailyForecast
        (Except.error "rate limited") (Except.error "network down") 0 0)).message =
        some EXTENDED_OUTLOOK_UNAVAILABLE_MESSAGE ∧
      (extendedOutlookOf (fetchDailyForecast
        (Except.error "rate limited") (Except.error "network down") 0 0)).isComplete = false :=
  (extendedOutlook_policy (Except.error "rate limited") (Except.error "network down")
    0 0).2.2.2.2.2 rfl

/-- C3 counterexample: over an empty short-range series the forecast-assembly
path does fail — `horizon[0]` is `undefined` and the `first.main.temp` access
throws before any highlight derivation, modelled by the `none` result — rather
than producing a highlight-free forecast. -/
theorem emptyHorizon_assembly_counterexample :
    fetchOptimisticForecast (fun _ => "") ⟨"Testville", 0, 0, none, "US"⟩
      ⟨[], 0⟩ none TempUnits.metric = none := rfl

/-- C3 (amended): every highlight derivation over an empty series returns the
empty highlight list rather than an error, but the forecast-assembly path over
an empty short-range series fails (at the first-entry access) instead of
succeeding without highlights. -/
theorem craftHighlights_empty_series (fmt : ℤ → String) (u : TempUnits) (off : ℤ) :
    craftHighlights fmt [] u off = [] ∧
    (∀ (loc : GeoLocation) (forecast : ForecastResponse)
        (ext : Option ExtendedForecastResponse), forecast.list = [] →
      fetchOptimisticForecast fmt loc forecast ext u = none) := by
  refine ⟨rfl, ?_⟩
  intro loc forecast ext h
  simp [fetchOptimisticForecast, h]

/-- C3 witness: instantiation at a concrete empty series. -/
theorem craftHighlights_empty_series_witness :
    craftHighlights (fun _ => "") [] TempUnits.metric 0 = [] ∧
    fetchOptimisticForecast (fun _ => "") ⟨"Nowhere", 1, 2, none, "US"⟩
      ⟨[], 0⟩ none TempUnits.metric = none :=
  ⟨(craftHighlights_empty_series (fun _ => "") TempUnits.metric 0).1,
   (craftHighlights_empty_series (fun _ => "") TempUnits.metric 0).2
     ⟨"Nowhere", 1, 2, none, "US"⟩ ⟨[], 0⟩ none rfl⟩

/-- A `\s` character is one of the six ASCII whitespace characters. -/
theorem isJsSpace_cases {c : Char} (h : isJsSpace c = true) :
    c = ' ' ∨ c = '\t' ∨ c = '\n' ∨ c = '\r' ∨ c = '\x0b' ∨ c = '\x0c' := by
  simpa [isJsSpace, or_assoc] using h

/-- Whitespace is not a postal-code body character. -/
theorem isJsSpace_not_zipChar {c : Char} (h : isJsSpace c = true) : isZipChar c = false := by
  rcases isJsSpace_cases h with rfl | rfl | rfl | rfl | rfl | rfl <;> decide

/-- Whitespace is not a digit. -/
theorem isJsSpace_not_digit {c : Char} (h : isJsSpace c = true) : c.isDigit = false := by
  rcases isJsSpace_cases h with rfl | rfl | rfl | rfl | rfl | rfl <;> decide

/-- A letter is not whitespace. -/
theorem isAlpha_not_jsSpace {c : Char} (h : c.isAlpha = true) : isJsSpace c = false := by
  cases hs : isJsSpace c with
  | false => rfl
  | true =>
    exfalso
    rcases isJsSpace_cases hs with rfl | rfl | rfl | rfl | rfl | rfl <;> exact absurd h (by decide)

/-- A letter is not a digit. -/
theorem isAlpha_not_digit {c : Char} (h : c.isAlpha = true) : c.isDigit = false := by
  simp only [Char.isAlpha, Char.isUpper, Char.isLower, Char.isDigit, Bool.or_eq_true,
    Bool.and_eq_true, decide_eq_true_eq, UInt32.le_def, BitVec.le_def,
    show ((65 : UInt32).toBitVec).toNat = 65 from rfl,
    show ((90 : UInt32).toBitVec).toNat = 90 from rfl,
    show ((97 : UInt32).toBitVec).toNat = 97 from rfl,
    show ((122 : UInt32).toBitVec).toNat = 122 from rfl] at h
  simp only [Char.isDigit]
  rw [Bool.and_eq_false_iff]
  simp only [decide_eq_false_iff_not, not_le, UInt32.le_def, BitVec.le_def,
    show ((48 : UInt32).toBitVec).toNat = 48 from rfl,
    show ((57 : UInt32).toBitVec).toNat = 57 from rfl]
  rcases h with ⟨h1, h2⟩ | ⟨h1, h2⟩ <;> omega

/-- `takeWhile` keeps an all-satisfying list whole. -/
theorem takeWhile_all_of {p : Char → Bool} {l : List Char}
    (h : ∀ x ∈ l, p x = true) : l.takeWhile p = l := by
  induction l with
  | nil => rfl
  | cons a t ih =>
    have ha := h a (List.mem_cons_self a t)
    have ht := ih (fun x hx => h x (List.mem_cons_of_mem a hx))
    simp [List.takeWhile_cons, ha, ht]

/-- `dropWhile` empties an all-satisfying list. -/
theorem dropWhile_all_of {p : Char → Bool} {l : List Char}
    (h : ∀ x ∈ l, p x = true) : l.dropWhile p = [] := by
  induction l with
  | nil => rfl
  | cons a t ih =>
    have ha := h a (List.mem_cons_self a t)
    have ht := ih (fun x hx => h x (List.mem_cons_of_mem a hx))
    simp [List.dropWhile_cons, ha, ht]

/-- `takeWhile` over an all-satisfying block followed by a failing character
stops exactly at the block. -/
theorem takeWhile_append_stop {p : Char → Bool} {l1 : List Char} {c : Char}
    {t : List Char} (h1 : ∀ x ∈ l1, p x = true) (hc : p c = false) :
    (l1 ++ c :: t).takeWhile p = l1 := by
  induction l1 with
  | nil => simp [List.takeWhile_cons, hc]
  | cons a t1 ih =>
    have ha := h1 a (List.mem_cons_self a t1)
    have ht := ih (fun x hx => h1 x (List.mem_cons_of_mem a hx))
    simp [List.takeWhile_cons, ha, ht]

/-- `dropWhile` over an all-satisfying block followed by a failing character
drops exactly the block. -/
theorem dropWhile_append_stop {p : Char → Bool} {l1 : List Char} {c : Char}
    {t : List Char} (h1 : ∀ x ∈ l1, p x = true) (hc : p c = false) :
    (l1 ++ c :: t).dropWhile p = c :: t := by
  induction l1 with
  | nil => simp [List.dropWhile_cons, hc]
  | cons a t1 ih =>
    have ha := h1 a (List.mem_cons_self a t1)
    have ht := ih (fun x hx => h1 x (List.mem_cons_of_mem a hx))
    simp [List.dropWhile_cons, ha, ht]

/-- The declarative shape of a query accepted by the mobile postal pattern:
a 3–10 character alphanumeric/hyphen code, either standing alone or followed
by optional whitespace, a comma, optional whitespace and a two-letter country
code. -/
def ZipShape (s code : String) (country : Option String) : Prop :=
  3 ≤ code.data.length ∧ code.data.length ≤ 10 ∧
    (∀ c ∈ code.data, isZipChar c = true) ∧
    ((country = none ∧ s.data = code.data) ∨
     (∃ sp1 sp2 c1 c2, country = some (String.mk [c1, c2]) ∧
        c1.isAlpha = true ∧ c2.isAlpha = true ∧
        (∀ c ∈ sp1, isJsSpace c = true) ∧ (∀ c ∈ sp2, isJsSpace c = true) ∧
        s.data = code.data ++ sp1 ++ ',' :: (sp2 ++ [c1, c2])))

/-- Inversion of the suffix matcher: a successful match is either the empty
remainder, or whitespace, a comma, whitespace and exactly two letters. -/
theorem zipSuffixMatch_some {rest : List Char} {octry : Option (List Char)}
    (h : zipSuffixMatch rest = some octry) :
    (rest = [] ∧ octry = none) ∨
    (∃ sp1 sp2 c1 c2, octry = some [c1, c2] ∧ c1.isAlpha = true ∧ c2.isAlpha = true ∧
      (∀ c ∈ sp1, isJsSpace c = true) ∧ (∀ c ∈ sp2, isJsSpace c = true) ∧
      rest = sp1 ++ ',' :: (sp2 ++ [c1, c2])) := by
  simp only [zipSuffixMatch] at h
  split at h
  · rename_i he
    refine Or.inl ⟨List.isEmpty_iff.mp he, ?_⟩
    simpa using h.symm
  · rename_i he
    split at h
    · rename_i rest2 heq1
      split at h
      · rename_i c1 c2 heq2
        split at h
        · rename_i halpha
          simp only [Option.some.injEq] at h
          rw [Bool.and_eq_true] at halpha
          refine Or.inr ⟨rest.takeWhile isJsSpace, rest2.takeWhile isJsSpace, c1, c2,
            h.symm, halpha.1, halpha.2,
            fun c hc => List.mem_takeWhile_imp hc,
            fun c hc => List.mem_takeWhile_imp hc, ?_⟩
          have h1 : rest.takeWhile isJsSpace ++ (',' :: rest2) = rest := by
            rw [← heq1]; exact List.takeWhile_append_dropWhile isJsSpace rest
          have h2 : rest2.takeWhile isJsSpace ++ [c1, c2] = rest2 := by
            rw [← heq2]; exact List.takeWhile_append_dropWhile isJsSpace rest2
          calc rest = rest.takeWhile isJsSpace ++ (',' :: rest2) := h1.symm
            _ = rest.takeWhile isJsSpace ++
                (',' :: (rest2.takeWhile isJsSpace ++ [c1, c2])) := by rw [h2]
        · exact absurd h (by simp)
      · exact absurd h (by simp)
    · exact absurd h (by simp)

/-- The leading code block and the suffix split cleanly at the first
non-zip character (a space or the comma). -/
theorem zip_block_split (code sp1 tail : List Char)
    (hall : ∀ c ∈ code, isZipChar c = true) (hsp1 : ∀ c ∈ sp1, isJsSpace c = true) :
    (code ++ sp1 ++ ',' :: tail).takeWhile isZipChar = code ∧
    (code ++ sp1 ++ ',' :: tail).dropWhile isZipChar = sp1 ++ ',' :: tail := by
  cases sp1 with
  | nil =>
    constructor
    · have := takeWhile_append_stop (p := isZipChar) (c := ',') (t := tail) hall (by decide)
      simpa using this
    · have := dropWhile_append_stop (p := isZipChar) (c := ',') (t := tail) hall (by decide)
      simpa using this
  | cons a t =>
    have ha : isZipChar a = false :=
      isJsSpace_not_zipChar (hsp1 a (List.mem_cons_self a t))
    constructor
    · have := takeWhile_append_stop (p := isZipChar) (c := a)
        (t := t ++ ',' :: tail) hall ha
      simpa using this
    · have := dropWhile_append_stop (p := isZipChar) (c := a)
        (t := t ++ ',' :: tail) hall ha
      simpa using this

/-- Characterization of the mobile postal pattern: it accepts exactly the
`ZipShape` decompositions (no digit requirement). -/
theorem zipExecMobile_eq_some_iff (s code : String) (country : Option String) :
    zipExecMobile s = some (code, country) ↔ ZipShape s code country := by
  constructor
  · intro h
    simp only [zipExecMobile] at h
    split at h
    · rename_i hcond
      rw [Bool.and_eq_true, decide_eq_true_eq, decide_eq_true_eq] at hcond
      split at h
      · rename_i octry heq
        simp only [Option.some.injEq, Prod.mk.injEq] at h
        obtain ⟨hcode, hctry⟩ := h
        have hsdata : s.data.takeWhile isZipChar ++ s.data.dropWhile isZipChar = s.data :=
          List.takeWhile_append_dropWhile isZipChar s.data
        have hcodedata : code.data = s.data.takeWhile isZipChar := by rw [← hcode]
        refine ⟨by rw [hcodedata]; exact hcond.1, by rw [hcodedata]; exact hcond.2,
          ?_, ?_⟩
        · intro c hc
          rw [hcodedata] at hc
          exact List.mem_takeWhile_imp hc
        · rcases zipSuffixMatch_some heq with ⟨hrest, rfl⟩ |
            ⟨sp1, sp2, c1, c2, rfl, ha1, ha2, hs1, hs2, hrest⟩
          · refine Or.inl ⟨by simpa using hctry.symm, ?_⟩
            have h0 := hsdata.symm
            rw [hrest, List.append_nil] at h0
            rw [hcodedata]
            exact h0
          · refine Or.inr ⟨sp1, sp2, c1, c2, by simpa using hctry.symm, ha1, ha2, hs1, hs2, ?_⟩
            have h0 := hsdata.symm
            rw [hrest] at h0
            rw [hcodedata, List.append_assoc]
            exact h0
      · exact absurd h (by simp)
    · exact absurd h (by simp)
  · intro hs
    obtain ⟨h3, h10, hall, hcase⟩ := hs
    rcases hcase with ⟨rfl, hdata⟩ | ⟨sp1, sp2, c1, c2, rfl, ha1, ha2, hsp1, hsp2, hdata⟩
    · have htake : s.data.takeWhile isZipChar = code.data := by
        rw [hdata]; exact takeWhile_all_of hall
      have hdrop : s.data.dropWhile isZipChar = [] := by
        rw [hdata]; exact dropWhile_all_of hall
      simp only [zipExecMobile, htake, hdrop]
      rw [if_pos (by rw [Bool.and_eq_true, decide_eq_true_eq, decide_eq_true_eq]; exact ⟨h3, h10⟩)]
      simp [zipSuffixMatch]
    · have hsplit := zip_block_split code.data sp1 (sp2 ++ [c1, c2]) hall hsp1
      have htake : s.data.takeWhile isZipChar = code.data := by
        rw [hdata]; exact hsplit.1
      have hdrop : s.data.dropWhile isZipChar = sp1 ++ ',' :: (sp2 ++ [c1, c2]) := by
        rw [hdata]; exact hsplit.2
      simp only [zipExecMobile, htake, hdrop]
      rw [if_pos (by rw [Bool.and_eq_true, decide_eq_true_eq, decide_eq_true_eq]; exact ⟨h3, h10⟩)]
      have hdropSp : (sp1 ++ ',' :: (sp2 ++ [c1, c2])).dropWhile isJsSpace =
          ',' :: (sp2 ++ [c1, c2]) :=
        dropWhile_append_stop hsp1 (by decide)
      have hdropSp2 : (sp2 ++ [c1, c2]).dropWhile isJsSpace = [c1, c2] := by
        have := dropWhile_append_stop (p := isJsSpace) (c := c1) (t := [c2]) hsp2
          (isAlpha_not_jsSpace ha1)
        simpa using this
      have hne : (sp1 ++ ',' :: (sp2 ++ [c1, c2])).isEmpty = false := by
        simp
      simp only [zipSuffixMatch, hne, hdropSp, hdropSp2, ha1, ha2, Bool.and_self, if_true]
      simp

/-- C6 counterexample: "Lisbon, PT" contains no digit, yet it does match the
mobile variant's postal pattern (which omits the web pattern's `(?=.*\d)`
lookahead), parsing as code "Lisbon" with country "PT". -/
theorem zipMobile_lisbon_counterexample :
    zipExecMobile "Lisbon, PT" = some ("Lisbon", some "PT") := rfl

/-- C6 (amended): the web variant treats a trimmed query as a postal code iff
it is a 3–10 character alphanumeric/hyphen code containing at least one digit,
optionally followed by a comma and a two-letter country code, with the country
defaulting to "US" when absent; "94103, us" parses to code "94103" with
country "us", and "Lisbon, PT" does not match the web pattern — but it does
match the mobile variant's pattern, which omits the digit requirement. -/
theorem zipPattern_digit_requirement :
    (∀ (s code : String) (country : Option String),
      zipExecWeb s = some (code, country) ↔
        (ZipShape s code country ∧ code.data.any Char.isDigit = true)) ∧
    zipExecWeb "94103, us" = some ("94103", some "us") ∧
    zipCountryOf none = "US" ∧
    zipExecWeb "Lisbon, PT" = none ∧
    zipExecMobile "Lisbon, PT" = some ("Lisbon", some "PT") := by
  refine ⟨?_, rfl, by decide, rfl, rfl⟩
  intro s code country
  constructor
  · intro h
    simp only [zipExecWeb] at h
    split at h
    · rename_i hdig
      have hz := (zipExecMobile_eq_some_iff s code country).mp h
      refine ⟨hz, ?_⟩
      obtain ⟨h3, h10, hall, hcase⟩ := hz
      rw [List.any_eq_true] at hdig ⊢
      obtain ⟨d, hd, hdd⟩ := hdig
      refine ⟨d, ?_, hdd⟩
      rcases hcase with ⟨_, hdata⟩ | ⟨sp1, sp2, c1, c2, _, ha1, ha2, hsp1, hsp2, hdata⟩
      · rwa [hdata] at hd
      · rw [hdata] at hd
        simp only [List.append_assoc, List.mem_append, List.mem_cons] at hd
        rcases hd with hd | hd | hd | hd
        · exact hd
        · exact absurd hdd (by rw [isJsSpace_not_digit (hsp1 d hd)]; exact Bool.false_ne_true)
        · subst hd; exact absurd hdd (by decide)
        · rcases hd with hd2 | rfl | rfl | hd4
          · exact absurd hdd
              (by rw [isJsSpace_not_digit (hsp2 d hd2)]; exact Bool.false_ne_true)
          · exact absurd hdd (by rw [isAlpha_not_digit ha1]; exact Bool.false_ne_true)
          · exact absurd hdd (by rw [isAlpha_not_digit ha2]; exact Bool.false_ne_true)
          · exact absurd hd4 (List.not_mem_nil d)
    · exact absurd h (by simp)
  · rintro ⟨hz, hdig⟩
    have hsdig : s.data.any Char.isDigit = true := by
      rw [List.any_eq_true] at hdig ⊢
      obtain ⟨d, hd, hdd⟩ := hdig
      refine ⟨d, ?_, hdd⟩
      obtain ⟨_, _, _, hcase⟩ := hz
      rcases hcase with ⟨_, hdata⟩ | ⟨sp1, sp2, c1, c2, _, _, _, _, _, hdata⟩
      · rwa [hdata]
      · rw [hdata]
        simp only [List.append_assoc, List.mem_append]
        exact Or.inl hd
    simp only [zipExecWeb, hsdig, if_true]
    exact (zipExecMobile_eq_some_iff s code country).mpr hz

/-- C6 witness: the characterization applied to the concrete query
"94103, us". -/
theorem zipPattern_digit_requirement_witness :
    ZipShape "94103, us" "94103" (some "us") ∧
      ("94103" : String).data.any Char.isDigit = true :=
  (zipPattern_digit_requirement.1 "94103, us" "94103" (some "us")).mp rfl

/-- Head of an ordered insert: the inserted element wins exactly when its
score is at most the old head's. -/
theorem head?_orderedInsert (x : GeoLocation × ℤ) (l : List (GeoLocation × ℤ)) :
    (List.orderedInsert scoreLe x l).head? =
      some (match l.head? with
        | none => x
        | some h => if x.2 ≤ h.2 then x else h) := by
  cases l with
  | nil => rfl
  | cons h t =>
    by_cases hc : scoreLe x h
    · have hc' : x.2 ≤ h.2 := hc
      rw [show List.orderedInsert scoreLe x (h :: t) = x :: h :: t from if_pos hc]
      simp [hc']
    · have hc' : ¬x.2 ≤ h.2 := hc
      rw [show List.orderedInsert scoreLe x (h :: t) = h :: List.orderedInsert scoreLe x t
        from if_neg hc]
      simp [hc']

/-- The head of the stable insertion sort is the first minimum: it is a list
element, no element scores lower, and every earlier element scores strictly
higher. -/
theorem insertionSort_head_first_min (l : List (GeoLocation × ℤ)) (hne : l ≠ []) :
    ∃ b i, (l.insertionSort scoreLe).head? = some b ∧
      i < l.length ∧ l.get? i = some b ∧
      (∀ o ∈ l, b.2 ≤ o.2) ∧
      (∀ o ∈ l.take i, b.2 < o.2) := by
  induction l with
  | nil => exact absurd rfl hne
  | cons x t ih =>
    cases t with
    | nil =>
      refine ⟨x, 0, rfl, by simp, rfl, ?_, by simp⟩
      intro o ho
      rcases List.mem_cons.mp ho with rfl | ho
      · exact le_refl _
      · exact absurd ho (List.not_mem_nil o)
    | cons y t2 =>
      obtain ⟨b', i', hh', hi', hg', hmin', hpre'⟩ := ih (by simp)
      have hstep : ((x :: y :: t2).insertionSort scoreLe).head? =
          some (if x.2 ≤ b'.2 then x else b') := by
        rw [show (x :: y :: t2).insertionSort scoreLe =
            List.orderedInsert scoreLe x ((y :: t2).insertionSort scoreLe) from rfl]
        rw [head?_orderedInsert, hh']
      by_cases hle : x.2 ≤ b'.2
      · refine ⟨x, 0, by rw [hstep, if_pos hle], by simp, rfl, ?_, by simp⟩
        intro o ho
        rcases List.mem_cons.mp ho with rfl | ho
        · exact le_refl _
        · exact le_trans hle (hmin' o ho)
      · push_neg at hle
        refine ⟨b', i' + 1, by rw [hstep, if_neg (not_le.mpr hle)], by simpa using hi',
          by simpa using hg', ?_, ?_⟩
        · intro o ho
          rcases List.mem_cons.mp ho with rfl | ho
          · exact le_of_lt hle
          · exact hmin' o ho
        · intro o ho
          rw [List.take_succ_cons] at ho
          rcases List.mem_cons.mp ho with rfl | ho
          · exact hle
          · exact hpre' o ho

/-- C5: for every region-name table, query and non-empty candidate list,
`pickBestMatch` returns the candidate with the lowest composite score
(`scoreFor`: edit distance adjusted by −40 country-hint match / +20 country
mismatch when some candidate's country is referenced, −25 state-hint match /
+15 then −10 US, +10 otherwise when the query names a state this candidate
lacks), and ties are broken by original provider order — the returned
candidate strictly beats every earlier candidate. -/
theorem pickBestMatch_first_argmin (regionNames : String → Option String)
    (query : String) (options : List GeoLocation) (hne : options ≠ []) :
    ∃ b i, pickBestMatch regionNames query options = some b ∧
      i < options.length ∧ options.get? i = some b ∧
      (∀ o ∈ options,
        scoreFor regionNames query options b ≤ scoreFor regionNames query options o) ∧
      (∀ o ∈ options.take i,
        scoreFor regionNames query options b < scoreFor regionNames query options o) := by
  match options, hne with
  | x :: t, _ =>
    set opts := x :: t with hopts
    set f : GeoLocation → GeoLocation × ℤ :=
      fun option => (option, scoreFor regionNames query opts option) with hf
    have hscored : (opts.map f) ≠ [] := by simp [hopts]
    obtain ⟨bp, i, hh, hi, hg, hmin, hpre⟩ := insertionSort_head_first_min (opts.map f) hscored
    have hgo : (opts.get? i).map f = some bp := by
      rw [← List.get?_map]; exact hg
    obtain ⟨o0, ho0, hfo0⟩ : ∃ o0, opts.get? i = some o0 ∧ f o0 = bp := by
      cases hoi : opts.get? i with
      | none => rw [hoi] at hgo; exact absurd hgo (by simp)
      | some o0 =>
        rw [hoi] at hgo
        exact ⟨o0, rfl, by simpa using hgo⟩
    have hb1 : bp.1 = o0 := by rw [← hfo0]
    have hb2 : bp.2 = scoreFor regionNames query opts o0 := by rw [← hfo0]
    refine ⟨bp.1, i, ?_, by simpa using hi, ?_, ?_, ?_⟩
    · show pickBestMatch regionNames query (x :: t) = some bp.1
      simp only [pickBestMatch]
      rw [show (x :: t).map
          (fun option => (option, scoreFor regionNames query (x :: t) option)) =
        opts.map f from rfl]
      rw [hh]
      rfl
    · rw [ho0, hb1]
    · intro o ho
      have : f o ∈ opts.map f := List.mem_map_of_mem f ho
      have h2 := hmin (f o) this
      rw [hb1, ← hb2]
      exact h2
    · intro o ho
      have : f o ∈ (opts.map f).take i := by
        rw [← List.map_take]
        exact List.mem_map_of_mem f ho
      have h2 := hpre (f o) this
      rw [hb1, ← hb2]
      exact h2

/-- C5 witness: instantiation at a concrete query and candidate pair. -/
theorem pickBestMatch_first_argmin_witness :
    ∃ b i, pickBestMatch (fun _ => none) "Seattle, WA"
        [⟨"Seattle", 47, -122, some "Washington", "US"⟩,
         ⟨"Seattle", 21, -104, some "Jalisco", "MX"⟩] = some b ∧
      i < ([⟨"Seattle", 47, -122, some "Washington", "US"⟩,
            ⟨"Seattle", 21, -104, some "Jalisco", "MX"⟩] : List GeoLocation).length ∧
      ([⟨"Seattle", 47, -122, some "Washington", "US"⟩,
        ⟨"Seattle", 21, -104, some "Jalisco", "MX"⟩] : List GeoLocation).get? i = some b ∧
      (∀ o ∈ ([⟨"Seattle", 47, -122, some "Washington", "US"⟩,
               ⟨"Seattle", 21, -104, some "Jalisco", "MX"⟩] : List GeoLocation),
        scoreFor (fun _ => none) "Seattle, WA"
            [⟨"Seattle", 47, -122, some "Washington", "US"⟩,
             ⟨"Seattle", 21, -104, some "Jalisco", "MX"⟩] b ≤
          scoreFor (fun _ => none) "Seattle, WA"
            [⟨"Seattle", 47, -122, some "Washington", "US"⟩,
             ⟨"Seattle", 21, -104, some "Jalisco", "MX"⟩] o) ∧
      (∀ o ∈ ([⟨"Seattle", 47, -122, some "Washington", "US"⟩,
               ⟨"Seattle", 21, -104, some "Jalisco", "MX"⟩] : List GeoLocation).take i,
        scoreFor (fun _ => none) "Seattle, WA"
            [⟨"Seattle", 47, -122, some "Washington", "US"⟩,
             ⟨"Seattle", 21, -104, some "Jalisco", "MX"⟩] b <
          scoreFor (fun _ => none) "Seattle, WA"
            [⟨"Seattle", 47, -122, some "Washington", "US"⟩,
             ⟨"Seattle", 21, -104, some "Jalisco", "MX"⟩] o) :=
  pickBestMatch_first_argmin (fun _ => none) "Seattle, WA"
    [⟨"Seattle", 47, -122, some "Washington", "US"⟩,
     ⟨"Seattle", 21, -104, some "Jalisco", "MX"⟩] (by decide)

/-- The dryness ratio as the claim words it: `dryShare` (one minus the mean
clamped pop fraction) times the non-negative part of `wetPenalty` (one minus
the wet-entry share), clamped to `[0, 1]`. -/
def drynessRatioSpec (horizon : List ForecastEntry) : ℚ :=
  let dryShare := 1 - average (horizon.map clampedPopOf)
  let wetPenalty := 1 - ((horizon.filter isWetEntry).length : ℚ) / (horizon.length : ℚ)
  max 0 (min 1 (dryShare * max wetPenalty 0))

/-- The dryness percentage: the ratio scaled to a percent and rounded. -/
def drynessPercentSpec (horizon : List ForecastEntry) : ℤ :=
  jsRound (drynessRatioSpec horizon * 100)

/-- The complementary displayed rain chance. -/
def rainChanceSpec (horizon : List ForecastEntry) : ℤ :=
  jsRound ((1 - drynessRatioSpec horizon) * 100)

/-- The entries carrying a numeric (non-NaN) pop, as sampled by the refresh
variant's detail text. -/
def popsWithDataSpec (horizon : List ForecastEntry) : List ℚ :=
  horizon.filterMap (fun entry =>
    match entry.pop with
    | some (JsNum.num q) => some q
    | _ => none)

/-- The head of the highlight list over a non-empty series is the dryness-slot
highlight, with all of its payload expressed through the spec-level dryness
definitions (definitional unfolding of `craftHighlights`). -/
theorem craftHighlights_head_eq (fmt : ℤ → String) (units : TempUnits) (off : ℤ)
    (first : ForecastEntry) (rest : List ForecastEntry) :
    (craftHighlights fmt (first :: rest) units off).head? =
      some (if 55 ≤ drynessPercentSpec (first :: rest) then
          { id := "dryness", title := "Dry Skies Bias"
            takeaway := toString (drynessPercentSpec (first :: rest)) ++
              "% odds you stay splash-free."
            detail := some (if drynessPercentSpec (first :: rest) = 100 then
                "Skies look bone-dry—perfect excuse to plan something outside."
              else "Still, a pocket umbrella doubles as a sunshade—win-win.")
            metricLabel := some "Rain chance"
            metricValue := some (toString (rainChanceSpec (first :: rest)) ++ "%")
            heroStatValue := some (toString (drynessPercentSpec (first :: rest)) ++ "%")
            heroStatLabel := some "Dry skies odds" }
        else
          { id := "refresh", title := "Sky Refills Incoming"
            takeaway := toString (drynessPercentSpec (first :: rest)) ++
              "% dry-window potential between the refills."
            detail := some (if (popsWithDataSpec (first :: rest)).isEmpty then
                "Radar hints at on-and-off showers—embrace indoor cozy time and watch for quick clearing moments."
              else "Rain chances near " ++ toString (rainChanceSpec (first :: rest)) ++
                "% mean the plants win—use the " ++
                toString (drynessPercentSpec (first :: rest)) ++
                "% dry breaks for fresh air or errand dashes.")
            metricLabel := some "Rain chance"
            metricValue := some (toString (rainChanceSpec (first :: rest)) ++ "%")
            heroStatValue := some (toString (drynessPercentSpec (first :: rest)) ++ "%")
            heroStatLabel := some "Dry window odds" }) := rfl

/-- Rounding the extreme ratios: 100% and 0%. -/
theorem jsRound_hundred : jsRound 100 = 100 := by
  simp only [jsRound]
  rw [Int.floor_eq_iff]
  constructor <;> norm_num

/-- Rounding zero. -/
theorem jsRound_zero : jsRound 0 = 0 := by
  simp only [jsRound]
  rw [Int.floor_eq_iff]
  constructor <;> norm_num

/-- C7: over every non-empty short-range series, the first highlight is the
dryness slot: it is the "dryness" variant iff the computed percentage (the
clamped product of dry share and non-negative wet penalty, scaled and rounded)
is at least 55 and the "refresh" variant otherwise, and both variants carry
that same percentage (and the complementary rain chance); with all-zero
clamped pop and no wet entries the percentage is 100 (choosing "dryness"),
and with all entries wet it is 0 (choosing "refresh"). -/
theorem craftHighlights_dryness_slot (fmt : ℤ → String) (units : TempUnits) (off : ℤ)
    (first : ForecastEntry) (rest : List ForecastEntry) :
    (∃ h, (craftHighlights fmt (first :: rest) units off).head? = some h ∧
      h.id = (if 55 ≤ drynessPercentSpec (first :: rest) then "dryness" else "refresh") ∧
      h.heroStatValue = some (toString (drynessPercentSpec (first :: rest)) ++ "%") ∧
      h.metricValue = some (toString (rainChanceSpec (first :: rest)) ++ "%")) ∧
    ((∀ e ∈ first :: rest, clampedPopOf e = 0) →
      (∀ e ∈ first :: rest, isWetEntry e = false) →
      drynessPercentSpec (first :: rest) = 100) ∧
    ((∀ e ∈ first :: rest, isWetEntry e = true) →
      drynessPercentSpec (first :: rest) = 0) := by
  refine ⟨⟨_, craftHighlights_head_eq fmt units off first rest, ?_, ?_, ?_⟩, ?_, ?_⟩
  · by_cases hc : 55 ≤ drynessPercentSpec (first :: rest) <;> simp [hc]
  · by_cases hc : 55 ≤ drynessPercentSpec (first :: rest) <;> simp [hc]
  · by_cases hc : 55 ≤ drynessPercentSpec (first :: rest) <;> simp [hc]
  · intro h0 hw
    have hsum : ((first :: rest).map clampedPopOf).sum = 0 := by
      refine List.sum_eq_zero ?_
      intro x hx
      obtain ⟨e, he, rfl⟩ := List.mem_map.mp hx
      exact h0 e he
    have havg : average ((first :: rest).map clampedPopOf) = 0 := by
      rw [average, if_neg (by simp), hsum, zero_div]
    have hwet : (first :: rest).filter isWetEntry = [] := by
      rw [List.filter_eq_nil_iff]
      intro a ha
      simp [hw a ha]
    simp only [drynessPercentSpec, drynessRatioSpec, havg, hwet]
    norm_num
    exact jsRound_hundred
  · intro hw
    have hfil : (first :: rest).filter isWetEntry = first :: rest := by
      rw [List.filter_eq_self]
      exact hw
    have hlen : (((first :: rest).length : ℕ) : ℚ) ≠ 0 := by
      simp only [List.length_cons]
      push_cast
      positivity
    simp only [drynessPercentSpec, drynessRatioSpec, hfil, div_self hlen]
    norm_num
    exact jsRound_zero

/-- C7 witness: a one-entry series with no pop and no wet signal reaches 100%
dryness. -/
theorem craftHighlights_dryness_slot_witness :
    drynessPercentSpec [⟨0, ⟨20, 20, 50⟩, [], some 0, ⟨1, none⟩, 10000, none, none, none⟩] =
      100 :=
  (craftHighlights_dryness_slot (fun _ => "") TempUnits.metric 0
      ⟨0, ⟨20, 20, 50⟩, [], some 0, ⟨1, none⟩, 10000, none, none, none⟩ []).2.1
    (by
      intro e he
      rcases List.mem_cons.mp he with rfl | he2
      · norm_num [clampedPopOf, clampUnit]
      · exact absurd he2 (List.not_mem_nil e))
    (by
      intro e he
      rcases List.mem_cons.mp he with rfl | he2
      · norm_num [isWetEntry, jsGt, jsGe, jsAdd]
      · exact absurd he2 (List.not_mem_nil e))

/-- First-occurrence deduplication as the claim words it: keep each item and
drop every later item with the same location key. -/
def keepFirstByKey : List LocationSuggestion → List LocationSuggestion
  | [] => []
  | x :: xs =>
    x :: keepFirstByKey (xs.filter (fun y =>
      buildLocationKey y.location ≠ buildLocationKey x.location))
termination_by l => l.length
decreasing_by
  exact Nat.lt_succ_of_le (List.length_filter_le _ _)

/-- The seen-set dedup pass equals first-occurrence filtering of the items
whose key is not already seen. -/
theorem dedupeSuggestionsGo_eq_keepFirst (l : List LocationSuggestion) :
    ∀ seen, dedupeSuggestionsGo seen l =
      keepFirstByKey (l.filter (fun x => buildLocationKey x.location ∉ seen)) := by
  induction l with
  | nil => intro seen; simp [dedupeSuggestionsGo, keepFirstByKey]
  | cons x xs ih =>
    intro seen
    by_cases h : buildLocationKey x.location ∈ seen
    · rw [show dedupeSuggestionsGo seen (x :: xs) = dedupeSuggestionsGo seen xs from
        if_pos h]
      rw [ih seen]
      congr 1
      rw [show (x :: xs).filter (fun x => buildLocationKey x.location ∉ seen) =
          xs.filter (fun x => buildLocationKey x.location ∉ seen) from by
        simp [List.filter_cons, h]]
    · rw [show dedupeSuggestionsGo seen (x :: xs) =
          x :: dedupeSuggestionsGo (buildLocationKey x.location :: seen) xs from
        if_neg h]
      rw [show (x :: xs).filter (fun x => buildLocationKey x.location ∉ seen) =
          x :: xs.filter (fun x => buildLocationKey x.location ∉ seen) from by
        simp [List.filter_cons, h]]
      rw [keepFirstByKey]
      congr 1
      rw [ih (buildLocationKey x.location :: seen), List.filter_filter]
      congr 1
      refine List.filter_congr ?_
      intro a _
      by_cases h1 : buildLocationKey a.location = buildLocationKey x.location <;>
        by_cases h2 : buildLocationKey a.location ∈ seen <;>
        simp [h1, h2]

/-- C8: the suggestion search returns `[]` (not an error) for trimmed queries
under 2 characters, otherwise returns the concatenation of the postal-code
candidates, the ranked free-text candidates (best match first) and the
comma-fallback candidates, in that priority order, deduplicated by the
location identity key keeping first occurrences, truncated to at most 5. -/
theorem searchLocationSuggestions_spec (regionNames : String → Option String)
    (zipLookup : String → String → Option GeoLocation)
    (geocodeResults : String → List GeoLocation) (query : String) :
    ((strTrim query).length < 2 →
      searchLocationSuggestions regionNames zipLookup geocodeResults query = []) ∧
    (searchLocationSuggestions regionNames zipLookup geocodeResults query).length ≤ 5 ∧
    (2 ≤ (strTrim query).length →
      searchLocationSuggestions regionNames zipLookup geocodeResults query =
        (dedupeSuggestions
          (zipSuggestionsFor zipLookup (strTrim query) ++
           primarySuggestionsFor regionNames geocodeResults (strTrim query) ++
           fallbackSuggestionsFor geocodeResults (strTrim query))).take 5) ∧
    (∀ items, dedupeSuggestions items = keepFirstByKey items) := by
  refine ⟨?_, ?_, ?_, ?_⟩
  · intro h
    simp only [searchLocationSuggestions]
    rw [if_pos h]
  · by_cases h : (strTrim query).length < 2
    · simp only [searchLocationSuggestions]
      rw [if_pos h]
      simp
    · simp only [searchLocationSuggestions]
      rw [if_neg h]
      exact List.length_take_le _ _
  · intro h
    simp only [searchLocationSuggestions]
    rw [if_neg (not_lt.mpr h)]
  · intro items
    rw [show dedupeSuggestions items = dedupeSuggestionsGo [] items from rfl,
      dedupeSuggestionsGo_eq_keepFirst items []]
    congr 1
    refine (List.filter_eq_self.mpr ?_)
    intro a _
    simp

/-- C8 witness: a one-character query yields the empty suggestion list. -/
theorem searchLocationSuggestions_spec_witness :
    searchLocationSuggestions (fun _ => none) (fun _ _ => none) (fun _ => []) "a" = [] :=
  (searchLocationSuggestions_spec (fun _ => none) (fun _ _ => none) (fun _ => []) "a").1
    (by decide)

end OptimisticWeather
